import Mathlib

/-!
Verification of the live buy-tracker core of the BBBBB-V2 repository.

The development shallowly embeds the TypeScript sources:
* the live tracker embedded in `src/config.ts` (swap listeners, `handleSwap`,
  `sendPremiumBuyAlert`, `syncListeners`, `getPreviousBalance`), and
* the variant tracker in `src/chains.runtime.ts` (its V3/V4 swap listeners,
  whose bodies differ from the `config.ts` ones by a pre-filter).

Numbers that are JavaScript `number` values (USD amounts, prices) are modelled
as `ℚ`; `BigNumber`/`bigint` on-chain amounts as `Int`/`Nat`; JavaScript `Map`s
as insertion-ordered association lists; network calls (DexScreener, Binance,
on-chain queries) as explicit oracle parameters, with `Option` capturing the
`try/catch` failure paths.  `Math.round` is `round : ℚ → ℤ` (half-up) and
`Math.floor` is `Int.floor`, matching the JavaScript semantics on the values
that occur.
-/

/-- The 40-zero placeholder address used by `syncListeners` for unknown tokens
(`"0x0000000000000000000000000000000000000000"` in the source). -/
def zeroAddr : String := "0x0000000000000000000000000000000000000000"

/-- JavaScript `String.prototype.toLowerCase` restricted to the ASCII strings
(chain ids, hex addresses) this code applies it to. -/
def toLowerStr (s : String) : String := ⟨s.data.map Char.toLower⟩

/-- JavaScript `String.prototype.repeat` (used for the emoji bar). -/
def strRepeat (s : String) (n : Nat) : String := String.join (List.replicate n s)

/-- `Map.get` on a JavaScript `Map` modelled as an insertion-ordered
association list. -/
def lookupA {α : Type} (l : List (String × α)) (k : String) : Option α :=
  match l with
  | [] => none
  | (k', v) :: t => if k' == k then some v else lookupA t k

/-- `Map.set`: replace the value of an existing key in place, else append. -/
def insertA {α : Type} (l : List (String × α)) (k : String) (v : α) :
    List (String × α) :=
  match l with
  | [] => [(k, v)]
  | (k', v') :: t => if k' == k then (k', v) :: t else (k', v') :: insertA t k v

/-- `Set.add` on a JavaScript `Set` modelled as an insertion-ordered list. -/
def addSet (l : List String) (x : String) : List String :=
  if l.contains x then l else l.concat x

/-- Lowercase hexadecimal digit test. -/
def isHexLower (c : Char) : Bool := c.isDigit || ('a' ≤ c && c ≤ 'f')

/-- `ethers.utils.isAddress`, specialised to the lowercased strings that
`syncListeners` feeds it (every candidate address is lowercased before the
check, so the mixed-case checksum branch of the real predicate is never
exercised): a 42-character string that starts with `0x` followed by 40
lowercase hex digits (written over the character list). -/
def isAddress (s : String) : Bool :=
  s.data.length == 42 && s.data.take 2 == ['0', 'x'] &&
    (s.data.drop 2).all isHexLower

/-- The subset of `BuyBotSettings` (src/unnamed/part_000) that the tracker
reads: chain id, tracked token, pool list, emoji, USD filters, emoji ratio and
cooldown.  The visual fields (image/animation/group link/pins) only affect
message rendering and are not modelled. -/
structure BuyBotSettings where
  chain : String
  tokenAddress : String
  allPairAddresses : List String
  emoji : String
  minBuyUsd : ℚ
  maxBuyUsd : Option ℚ
  dollarsPerEmoji : ℚ
  cooldownSeconds : Option ℚ
deriving Repr, DecidableEq

/-- The `tokens` record `{ token0, token1 }` closed over by the swap
listeners. -/
structure SwapTokens where
  token0 : String
  token1 : String
deriving Repr, DecidableEq

/-- The canonical four-unsigned-leg swap shape every listener feeds into
`handleSwap`. -/
structure Swap4 where
  amount0In : Int
  amount1In : Int
  amount0Out : Int
  amount1Out : Int
deriving Repr, DecidableEq

/-- The four-leg canonical mapping exactly as the specification states it:
`amount0In = a0` if `a0 > 0` else `0`, `amount1In = a1` if `a1 > 0` else `0`,
`amount0Out = -a0` if `a0 < 0` else `0`, `amount1Out = -a1` if `a1 < 0` else
`0`.  Written from the spec's words, to be compared with the listeners below. -/
def canonicalOfSignedSpec (a0 a1 : Int) : Swap4 :=
  ⟨if 0 < a0 then a0 else 0, if 0 < a1 then a1 else 0,
   if a0 < 0 then -a0 else 0, if a1 < 0 then -a1 else 0⟩

/-- The V3 `Swap` callback of `attachSwapListener` in `config.ts` (lines
429-450): converts the two signed deltas and forwards the four legs to
`handleSwap` unconditionally.  The result is the `Swap4` submitted to
`handleSwap` (`some` because this listener never drops an event). -/
def v3ForwardConfig (a0 a1 : Int) : Option Swap4 :=
  some ⟨if 0 < a0 then a0 else 0, if 0 < a1 then a1 else 0,
        if a0 < 0 then -a0 else 0, if a1 < 0 then -a1 else 0⟩

/-- The V4 `Swap` callback of `attachSwapListener` in `config.ts` (lines
452-473); its body is identical to the V3 one apart from the ignored protocol
fee argument. -/
def v4ForwardConfig (a0 a1 : Int) : Option Swap4 :=
  some ⟨if 0 < a0 then a0 else 0, if 0 < a1 then a1 else 0,
        if a0 < 0 then -a0 else 0, if a1 < 0 then -a1 else 0⟩

/-- The V3 `Swap` callback of `attachSwapListener` in `chains.runtime.ts`
(lines 92-126): first decides `isBuy` from the signed deltas
(`(isToken0 && a0 < 0) || (!isToken0 && a1 < 0)`), returns early when the
event is not a buy, and only then builds the four legs for `handleSwap`. -/
def v3ForwardRuntime (token0 targetTokenLower : String) (a0 a1 : Int) :
    Option Swap4 :=
  let isToken0 := token0 == targetTokenLower
  let isBuy := (isToken0 && decide (a0 < 0)) || (!isToken0 && decide (a1 < 0))
  if isBuy then
    some ⟨if 0 < a0 then a0 else 0, if 0 < a1 then a1 else 0,
          if a0 < 0 then -a0 else 0, if a1 < 0 then -a1 else 0⟩
  else none

/-- The V4 `Swap` callback of `attachSwapListener` in `chains.runtime.ts`
(lines 129-163), identical to its V3 callback apart from the ignored fee
argument. -/
def v4ForwardRuntime (token0 targetTokenLower : String) (a0 a1 : Int) :
    Option Swap4 :=
  let isToken0 := token0 == targetTokenLower
  let isBuy := (isToken0 && decide (a0 < 0)) || (!isToken0 && decide (a1 < 0))
  if isBuy then
    some ⟨if 0 < a0 then a0 else 0, if 0 < a1 then a1 else 0,
          if a0 < 0 then -a0 else 0, if a1 < 0 then -a1 else 0⟩
  else none

/-- The leg-positivity acceptance test of `handleSwap` (config.ts line 524 and
chains.runtime.ts line 225): keep a canonical swap only when the inbound base
leg and the outbound tracked-token leg are strictly positive. -/
def buyLegsOk (isToken0 : Bool) (s : Swap4) : Bool :=
  let baseIn := if isToken0 then s.amount1In else s.amount0In
  let tokenOut := if isToken0 then s.amount0Out else s.amount1Out
  !(decide (baseIn ≤ 0) || decide (tokenOut ≤ 0))

/-- Composition of a listener's forwarding decision with `handleSwap`'s
leg-positivity filter: the canonical swaps that survive to alerting. -/
def acceptedSwap (isToken0 : Bool) (o : Option Swap4) : Option Swap4 :=
  o.bind fun s => if buyLegsOk isToken0 s then some s else none

/-- The alert payload `PremiumAlertData` built by `handleSwap` (config.ts
lines 107-122), restricted to the fields with computational content; the
locale-formatted display string `tokenAmountDisplay` is derived from
`tokenAmount` and is not modelled separately. -/
structure PremiumAlertData where
  usdValue : ℚ
  baseAmount : ℚ
  tokenAmount : ℚ
  tokenSymbol : String
  txHash : String
  chain : String
  buyer : String
  positionIncrease : Option Int
  marketCap : ℚ
  volume24h : ℚ
  priceUsd : ℚ
  pairAddress : String
  pairLiquidityUsd : ℚ
deriving Repr, DecidableEq

/-- What `sendPremiumBuyAlert` dispatches once an alert passes every gate:
the rounded USD figure and the emoji bar of the rendered message. -/
structure DispatchedAlert where
  buyUsd : Int
  emojiBar : String
deriving Repr, DecidableEq

/-- The cooldown key `` `${groupId}:${pairAddress.toLowerCase()}` `` of
`sendPremiumBuyAlert` (config.ts line 718). -/
def cooldownKey (groupId : Int) (pairAddress : String) : String :=
  toString groupId ++ ":" ++ toLowerStr pairAddress

/-- The gating logic of `sendPremiumBuyAlert` (config.ts lines 692-771):
round the USD value, reject below `minBuyUsd`, reject above a truthy
`maxBuyUsd`, then apply the per `(group, pair)` cooldown against the
`lastAlertAt` map (default window 3 s), updating the map only on acceptance.
Returns the dispatched alert (with its emoji bar, config.ts lines 768-771)
and the updated `lastAlertAt` map.  The message rendering and Telegram send
that follow have no further gating effect and are not modelled. -/
def sendPremiumBuyAlert (settings : BuyBotSettings) (groupId : Int)
    (pairAddress : String) (usdValue : ℚ) (now : Int)
    (lastAlertAt : List (String × Int)) :
    Option DispatchedAlert × List (String × Int) :=
  let buyUsd : Int := round usdValue
  if (buyUsd : ℚ) < settings.minBuyUsd then (none, lastAlertAt)
  else if (match settings.maxBuyUsd with
           | some m => !(m == 0) && decide (m < (buyUsd : ℚ))
           | none => false) then (none, lastAlertAt)
  else
    let key := cooldownKey groupId pairAddress
    let cdMs : ℚ := (settings.cooldownSeconds.getD 3) * 1000
    let last : Int := (lookupA lastAlertAt key).getD 0
    if ((now - last : Int) : ℚ) < cdMs then (none, lastAlertAt)
    else
      let emojiCount : Int :=
        ⌊(buyUsd : ℚ) / (if settings.dollarsPerEmoji == 0 then 50
                         else settings.dollarsPerEmoji)⌋
      let emojiBar := strRepeat settings.emoji (min 50 emojiCount).toNat
      (some ⟨buyUsd, emojiBar⟩, insertA lastAlertAt key now)

/-- The related-group scan at the top of `handleSwap` (config.ts lines
489-500): every configuration whose chain matches and whose pool list
contains the pool address case-insensitively. -/
def relatedGroupsOf (cfgs : List (Int × BuyBotSettings)) (chain pairAddress : String) :
    List (Int × BuyBotSettings) :=
  cfgs.filter fun gs =>
    gs.2.chain == chain &&
      gs.2.allPairAddresses.any fun p => toLowerStr p == toLowerStr pairAddress

/-- `getPreviousBalance` (config.ts lines 955-978): an on-chain
`balanceOf(wallet, blockTag)` query whose missing-runtime and `catch` paths
both collapse to a zero balance.  The query itself is the oracle argument. -/
def getPreviousBalance (queryResult : Option Nat) : Nat :=
  queryResult.getD 0

/-- The decimals resolution of `handleSwap` (config.ts lines 578-602): accept
the on-chain `decimals()` answer only when it is a finite number within
0..36, otherwise keep the default 18; a thrown query (`none`) also keeps 18. -/
def tokenDecimalsOf (decResult : Option Int) : Int :=
  match decResult with
  | some d => if 0 ≤ d ∧ d ≤ 36 then d else 18
  | none => 18

/-- The position-increase computation of `handleSwap` (config.ts lines
618-636): only when the USD value reaches the fixed `MIN_POSITION_USD = 100`
floor, query the balance at the previous block (failures count as zero), add
the purchased `tokenOut` to obtain the post-trade balance, and when the prior
balance is positive report `Math.round(Number((diff * 1000n) / prev) / 10)`. -/
def positionIncreaseOf (usdValue : ℚ) (prevQuery : Option Nat) (tokenOut : Nat) :
    Option Int :=
  if 100 ≤ usdValue then
    let prevBalance := getPreviousBalance prevQuery
    let currentBalance := prevBalance + tokenOut
    if 0 < prevBalance then
      let diff := currentBalance - prevBalance
      some (round ((((diff * 1000) / prevBalance : Nat) : ℚ) / 10))
    else none
  else none

/-- One DexScreener pair record as `handleSwap` consumes it (config.ts lines
553-571), after the `parseFloat(... || "0")` and `... || 0` coercions: token
addresses and symbols plus the numeric price, fully-diluted value, 24 h
volume and pool liquidity (absent JSON fields arrive here as `0` / `""`). -/
structure PairData where
  baseTokenAddress : String
  baseTokenSymbol : String
  quoteTokenAddress : String
  quoteTokenSymbol : String
  priceUsd : ℚ
  fdv : ℚ
  volumeH24 : ℚ
  liquidityUsd : ℚ
deriving Repr, DecidableEq

/-- Result of one `handleSwap` run: the tasks submitted to the dispatch queue
(one per related group, carrying the shared alert payload) and the pool-list
self-heal write-back, when one happened (config.ts lines 505-514). -/
structure HandleSwapResult where
  enqueued : List (Int × PremiumAlertData)
  updatedPools : Option (List String)
deriving Repr, DecidableEq

/-- `handleSwap` (config.ts lines 476-663; chains.runtime.ts lines 177-362 is
line-for-line the same logic).  External effects are oracle parameters:
`disc` is `getAllValidPairs` (pool discovery, the addresses it returns),
`pairData` the resolved DexScreener pair record (`none` covers both a failed
fetch and an absent pair), `decResult` the on-chain `decimals()` query,
`nativePriceUsd` the `getNativePrice` result, and `prevQuery` the
`balanceOf` query behind `getPreviousBalance`.  The function returns the
dispatch-queue submissions; note that `globalAlertQueue.enqueue` runs for
every related group once the leg filter passes, with the min/max USD and
cooldown checks deferred to the queued `sendPremiumBuyAlert` task.  The
pool-list self-heal (lines 505-514) mutates only `allPairAddresses` of the
first related configuration, a field nothing later in `handleSwap` reads, so
it is modelled as the `updatedPools` output and `tokenAddress` is read from
the unmodified record. -/
def handleSwap (cfgs : List (Int × BuyBotSettings)) (chain pairAddress : String)
    (tokens : SwapTokens) (txHash : String)
    (amount0In amount1In amount0Out amount1Out : Int) (toAddr : String)
    (disc : String → String → List String)
    (pairData : Option PairData) (decResult : Option Int)
    (nativePriceUsd : ℚ) (prevQuery : Option Nat) :
    HandleSwapResult :=
  let relatedGroups := relatedGroupsOf cfgs chain pairAddress
  match relatedGroups with
  | [] => ⟨[], none⟩
  | (_, settings0) :: _ =>
    let updatedPools : Option (List String) :=
      if settings0.allPairAddresses.length ≤ 1 then
        let validPairs := disc settings0.tokenAddress chain
        if validPairs.isEmpty then none else some validPairs
      else none
    let targetToken := toLowerStr settings0.tokenAddress
    let isToken0 := tokens.token0 == targetToken
    let isToken1 := tokens.token1 == targetToken
    if !isToken0 && !isToken1 then ⟨[], updatedPools⟩
    else
      let baseIn := if isToken0 then amount1In else amount0In
      let tokenOut := if isToken0 then amount0Out else amount1Out
      if baseIn ≤ 0 ∨ tokenOut ≤ 0 then ⟨[], updatedPools⟩
      else
        let baseAmount : ℚ := (baseIn : ℚ) / 10 ^ 18
        let priceSymbol : ℚ × String :=
          match pairData with
          | some p =>
            if toLowerStr p.baseTokenAddress == toLowerStr settings0.tokenAddress then
              (p.priceUsd, if p.baseTokenSymbol == "" then "TOKEN" else p.baseTokenSymbol)
            else if toLowerStr p.quoteTokenAddress == toLowerStr settings0.tokenAddress then
              (if p.priceUsd == 0 then 0 else 1 / p.priceUsd,
               if p.quoteTokenSymbol == "" then "TOKEN" else p.quoteTokenSymbol)
            else (0, "TOKEN")
          | none => (0, "TOKEN")
        let priceUsd := priceSymbol.1
        let tokenSymbol := priceSymbol.2
        let marketCap0 : ℚ := match pairData with | some p => p.fdv | none => 0
        let volume24h : ℚ := match pairData with | some p => p.volumeH24 | none => 0
        let pairLiquidityUsd : ℚ :=
          match pairData with | some p => p.liquidityUsd | none => 0
        let marketCap : ℚ :=
          if marketCap0 == 0 && decide (0 < priceUsd) then
            priceUsd * 1000000000000000
          else marketCap0
        let tokenDecimals := tokenDecimalsOf decResult
        let rawTokenAmount : ℚ := (tokenOut : ℚ) / 10 ^ tokenDecimals.toNat
        let usdValue := baseAmount * nativePriceUsd
        let positionIncrease := positionIncreaseOf usdValue prevQuery tokenOut.toNat
        let alert : PremiumAlertData :=
          { usdValue
            baseAmount
            tokenAmount := rawTokenAmount
            tokenSymbol
            txHash
            chain
            buyer := toAddr
            positionIncrease
            marketCap
            volume24h
            priceUsd
            pairAddress
            pairLiquidityUsd }
        ⟨relatedGroups.map fun gs => (gs.1, alert), updatedPools⟩

/-- One chain entry of `appConfig.chains` (config.ts lines 7-10); only the
RPC endpoint matters to the tracker (`explorer` feeds message rendering). -/
structure ChainCfg where
  rpcUrl : String
deriving Repr, DecidableEq

/-- `PairRuntime` (config.ts lines 92-96): the listening contract (identified
by a creation stamp) and the two token slots recorded for the pool. -/
structure PairRuntime where
  contractId : Nat
  token0 : String
  token1 : String
deriving Repr, DecidableEq

/-- `ChainRuntime` (config.ts lines 98-103): the provider (identified by a
creation stamp), the pool map, the endpoint and its transport kind.
`wsOpen` models `provider._websocket.readyState === 1`; it is only consulted
when `isWebSocket` holds, and a freshly created provider is taken to have an
open socket by the next cycle. -/
structure ChainRuntime where
  providerId : Nat
  pairs : List (String × PairRuntime)
  rpcUrl : String
  isWebSocket : Bool
  wsOpen : Bool
deriving Repr, DecidableEq

/-- The whole mutable state `syncListeners` reads and writes: the
`groupSettings` map, the `runtimes` map, and a stamp supply for fresh
providers and contracts. -/
structure SyncState where
  cfgs : List (Int × BuyBotSettings)
  runtimes : List (String × ChainRuntime)
  nextId : Nat
deriving Repr, DecidableEq

/-- Observable subscription churn of one sync cycle: provider creations
(including websocket re-creations), listener removals
(`removeAllListeners`) and listener attachments (`attachSwapListener`). -/
inductive SyncEvent where
  | createProvider (chain : String)
  | removeListeners (chain addr : String)
  | attach (chain addr : String)
deriving Repr, DecidableEq

/-- Step 1 of `syncListeners` (config.ts lines 190-195): the set of pool
addresses, lowercased, referenced by any configuration on any chain. -/
def activePairAddrs (cfgs : List (Int × BuyBotSettings)) : List String :=
  cfgs.foldl (fun acc gs => gs.2.allPairAddresses.foldl (fun a p => addSet a (toLowerStr p)) acc) []

/-- Step 2 of `syncListeners` on one runtime (config.ts lines 197-212): drop
every tracked pair whose address no configuration references anywhere. -/
def globalCleanupRt (active : List String) (chain : String) (rt : ChainRuntime) :
    ChainRuntime × List SyncEvent :=
  ({ rt with pairs := rt.pairs.filter fun ap => active.contains ap.1 },
   (rt.pairs.filter fun ap => !(active.contains ap.1)).map
     fun ap => SyncEvent.removeListeners chain ap.1)

/-- Step 2 of `syncListeners` over every runtime. -/
def globalCleanup (active : List String) (rts : List (String × ChainRuntime)) :
    List (String × ChainRuntime) × List SyncEvent :=
  (rts.map (fun crt => (crt.1, (globalCleanupRt active crt.1 crt.2).1)),
   rts.flatMap fun crt => (globalCleanupRt active crt.1 crt.2).2)

/-- The per-configuration part of step 3 of `syncListeners` (config.ts lines
216-234): when the chain is configured and the pool list is empty, ask pool
discovery (`getAllValidPairs`, the `disc` oracle) and adopt a non-empty
answer.  Loop iterations touch disjoint state, so the source's single pass is
modelled as this per-configuration update followed by `buildNeeded` below. -/
def cfgStep (appChains : List (String × ChainCfg)) (disc : String → String → List String)
    (s : BuyBotSettings) : BuyBotSettings :=
  match lookupA appChains s.chain with
  | none => s
  | some _ =>
    if s.allPairAddresses.isEmpty then
      let validPairs := disc s.tokenAddress s.chain
      if validPairs.isEmpty then s else { s with allPairAddresses := validPairs }
    else s

/-- The accumulation part of step 3 (config.ts lines 236-244): add each of a
configuration's pool addresses, lowercased, to its chain's needed set. -/
def addNeeded (needed : List (String × List String)) (chain : String)
    (addrs : List String) : List (String × List String) :=
  insertA needed chain (addrs.foldl addSet ((lookupA needed chain).getD []))

/-- Step 3's needed-pool map per chain, built from the (already updated)
configurations in iteration order, skipping unconfigured chains and empty
pool lists. -/
def buildNeeded (appChains : List (String × ChainCfg))
    (cfgs : List (Int × BuyBotSettings)) : List (String × List String) :=
  cfgs.foldl
    (fun acc gs =>
      match lookupA appChains gs.2.chain with
      | none => acc
      | some _ =>
        if gs.2.allPairAddresses.isEmpty then acc
        else addNeeded acc gs.2.chain (gs.2.allPairAddresses.map toLowerStr))
    []

/-- Step 3 of `syncListeners` (config.ts lines 214-244): the updated
configurations and the needed pools per chain. -/
def computeNeeded (appChains : List (String × ChainCfg))
    (disc : String → String → List String) (cfgs : List (Int × BuyBotSettings)) :
    List (Int × BuyBotSettings) × List (String × List String) :=
  let cfgs1 := cfgs.map fun gs => (gs.1, cfgStep appChains disc gs.2)
  (cfgs1, buildNeeded appChains cfgs1)

/-- `rpcUrl.startsWith("wss")` (config.ts line 252), written over the
character list. -/
def startsWithWss (url : String) : Bool := url.data.take 3 == ['w', 's', 's']

/-- Provider creation for an untracked chain (config.ts lines 251-264):
websocket when the endpoint starts with `wss`, with an empty pair map. -/
def freshRuntime (cfg : ChainCfg) (k : Nat) : ChainRuntime :=
  let isWs := startsWithWss cfg.rpcUrl
  { providerId := k, pairs := [], rpcUrl := cfg.rpcUrl, isWebSocket := isWs,
    wsOpen := true }

/-- The reattachment loop of the websocket-recovery branch (config.ts lines
273-285): for every tracked pair, drop the old listeners, build a fresh
contract on the new provider and attach the swap listeners again, keeping the
pair's address and token slots. -/
def reconnectPairsAux (chain : String) (k : Nat)
    (pairs : List (String × PairRuntime)) :
    List (String × PairRuntime) × Nat × List SyncEvent :=
  match pairs with
  | [] => ([], k, [])
  | (addr, pr) :: t =>
    let pr1 := { pr with contractId := k }
    let rec1 := reconnectPairsAux chain (k + 1) t
    ((addr, pr1) :: rec1.1, rec1.2.1,
     SyncEvent.removeListeners chain addr :: SyncEvent.attach chain addr :: rec1.2.2)

/-- The websocket-recovery branch of `syncListeners` (config.ts lines
265-293): when a streaming provider's socket is not open, create a new
provider and reattach every tracked pair's subscriptions to it. -/
def reconnectRuntime (chain : String) (k : Nat) (rt : ChainRuntime) :
    ChainRuntime × Nat × List SyncEvent :=
  let rec1 := reconnectPairsAux chain (k + 1) rt.pairs
  ({ rt with providerId := k, pairs := rec1.1, wsOpen := true }, rec1.2.1,
   SyncEvent.createProvider chain :: rec1.2.2)

/-- The connection-management prefix of step 4 (config.ts lines 250-294):
create a provider for an untracked chain, or repair a dead websocket. -/
def ensureRuntime (cfg : ChainCfg) (chain : String) (rtOpt : Option ChainRuntime)
    (k : Nat) : ChainRuntime × Nat × List SyncEvent :=
  match rtOpt with
  | none => (freshRuntime cfg k, k + 1, [SyncEvent.createProvider chain])
  | some rt =>
    if rt.isWebSocket && !rt.wsOpen then reconnectRuntime chain k rt
    else (rt, k, [])

/-- The per-chain cleanup of step 4 (config.ts lines 296-308): stop listening
on tracked pairs that this chain's needed set no longer contains. -/
def cleanupUnneeded (chain : String) (needed : List String) (rt : ChainRuntime) :
    ChainRuntime × List SyncEvent :=
  ({ rt with pairs := rt.pairs.filter fun ap => needed.contains ap.1 },
   (rt.pairs.filter fun ap => !(needed.contains ap.1)).map
     fun ap => SyncEvent.removeListeners chain ap.1)

/-- The tracked-token derivation for a new pair (config.ts lines 327-338):
the first configuration on this chain whose pool list contains the address
(case-insensitively) donates its token, lowercased; otherwise the zero
address. -/
def firstMatchToken0 (cfgs : List (Int × BuyBotSettings)) (chain addr : String) :
    String :=
  match cfgs.find? (fun gs =>
      gs.2.chain == chain &&
        gs.2.allPairAddresses.any fun p => toLowerStr p == toLowerStr addr) with
  | some gs => toLowerStr gs.2.tokenAddress
  | none => zeroAddr

/-- The listener-creation loop of step 4 (config.ts lines 310-358): for each
needed address not yet tracked, skip malformed addresses, otherwise register
a `PairRuntime` whose `token0` is the matching configuration's token and
whose `token1` is the zero address, and attach the swap listeners. -/
def addNewPairsAux (cfgs : List (Int × BuyBotSettings)) (chain : String) (k : Nat)
    (pairs : List (String × PairRuntime)) (todo : List String) :
    List (String × PairRuntime) × Nat × List SyncEvent :=
  match todo with
  | [] => (pairs, k, [])
  | addr :: rest =>
    if (lookupA pairs addr).isSome then addNewPairsAux cfgs chain k pairs rest
    else if !(isAddress addr) then addNewPairsAux cfgs chain k pairs rest
    else
      let pr : PairRuntime :=
        { contractId := k, token0 := firstMatchToken0 cfgs chain addr,
          token1 := zeroAddr }
      let rec1 := addNewPairsAux cfgs chain (k + 1) (insertA pairs addr pr) rest
      (rec1.1, rec1.2.1, SyncEvent.attach chain addr :: rec1.2.2)

/-- Step 4 of `syncListeners` for one chain of the needed map (config.ts
lines 246-359): ensure a live provider, drop unneeded pairs, register the
missing ones. -/
def syncChain (appChains : List (String × ChainCfg))
    (cfgs : List (Int × BuyBotSettings))
    (acc : List (String × ChainRuntime) × Nat × List SyncEvent)
    (entry : String × List String) :
    List (String × ChainRuntime) × Nat × List SyncEvent :=
  match lookupA appChains entry.1 with
  | none => acc
  | some cfg =>
    let ens := ensureRuntime cfg entry.1 (lookupA acc.1 entry.1) acc.2.1
    let cle := cleanupUnneeded entry.1 entry.2 ens.1
    let add := addNewPairsAux cfgs entry.1 ens.2.1 cle.1.pairs entry.2
    (insertA acc.1 entry.1 { cle.1 with pairs := add.1 }, add.2.1,
     acc.2.2 ++ ens.2.2 ++ cle.2 ++ add.2.2)

/-- `syncListeners` (config.ts lines 186-360) as a state transformer: global
cleanup against the union of referenced addresses, pool discovery and
needed-set computation, then per-chain reconciliation in needed-map order.
Returns the new state and the subscription churn of the cycle. -/
def syncListeners (appChains : List (String × ChainCfg))
    (disc : String → String → List String) (s : SyncState) :
    SyncState × List SyncEvent :=
  let active := activePairAddrs s.cfgs
  let clean := globalCleanup active s.runtimes
  let nee := computeNeeded appChains disc s.cfgs
  let step4 := nee.2.foldl (syncChain appChains nee.1) (clean.1, s.nextId, [])
  (⟨nee.1, step4.1, step4.2.1⟩, clean.2 ++ step4.2.2)

/-- Invariant used to show the sync cycle is churn-free on a re-run: the
chain's runtime exists, its socket is usable, it tracks only needed pools,
and it tracks every well-formed needed pool. -/
def chainDone (rts : List (String × ChainRuntime)) (entry : String × List String) :
    Prop :=
  ∃ rt, lookupA rts entry.1 = some rt ∧
    (rt.isWebSocket = true → rt.wsOpen = true) ∧
    (∀ ap ∈ rt.pairs, ap.1 ∈ entry.2) ∧
    (∀ a ∈ entry.2, isAddress a = true → (lookupA rt.pairs a).isSome = true)

theorem lookupA_mem {α : Type} {l : List (String × α)} {k : String} {v : α}
    (h : lookupA l k = some v) : (k, v) ∈ l := by
  induction l with
  | nil => simp [lookupA] at h
  | cons hd t ih =>
    obtain ⟨k', v'⟩ := hd
    by_cases hk : (k' == k) = true
    · simp [lookupA, hk] at h
      exact List.mem_cons.mpr (Or.inl (by rw [eq_of_beq hk, h]))
    · simp [lookupA, hk] at h
      exact List.mem_cons_of_mem _ (ih h)

theorem lookupA_insertA_self {α : Type} {l : List (String × α)} {k : String}
    {v : α} (h : lookupA l k = some v) : insertA l k v = l := by
  induction l with
  | nil => simp [lookupA] at h
  | cons hd t ih =>
    obtain ⟨k', v'⟩ := hd
    by_cases hk : (k' == k) = true
    · simp [lookupA, hk] at h
      simp [insertA, hk, h]
    · simp [lookupA, hk] at h
      simp [insertA, hk, ih h]

theorem lookupA_insertA_eq {α : Type} (l : List (String × α)) (k : String) (v : α) :
    lookupA (insertA l k v) k = some v := by
  induction l with
  | nil => simp [insertA, lookupA]
  | cons hd t ih =>
    obtain ⟨k', v'⟩ := hd
    by_cases hk : (k' == k) = true
    · simp [insertA, hk, lookupA]
    · simp [insertA, hk, lookupA, ih]

theorem lookupA_insertA_ne {α : Type} (l : List (String × α)) {k k2 : String}
    (v : α) (h : (k == k2) = false) :
    lookupA (insertA l k v) k2 = lookupA l k2 := by
  induction l with
  | nil => simp [insertA, lookupA, h]
  | cons hd t ih =>
    obtain ⟨k', v'⟩ := hd
    by_cases hk : (k' == k) = true
    · have : (k' == k2) = false := by
        rw [eq_of_beq hk]; exact h
      simp [insertA, hk, lookupA, this]
    · simp [insertA, hk, lookupA, ih]

theorem mem_insertA {α : Type} {l : List (String × α)} {k : String} {v : α}
    {e : String × α} (h : e ∈ insertA l k v) : e ∈ l ∨ e = (k, v) := by
  induction l with
  | nil => simp [insertA] at h; simp [h]
  | cons hd t ih =>
    obtain ⟨k', v'⟩ := hd
    by_cases hk : (k' == k) = true
    · simp only [insertA, hk, if_true] at h
      rcases List.mem_cons.mp h with h | h
      · right; rw [h, eq_of_beq hk]
      · left; exact List.mem_cons_of_mem _ h
    · simp only [insertA, hk, if_false, Bool.false_eq_true] at h
      rcases List.mem_cons.mp h with h | h
      · left; simp [h]
      · rcases ih h with h2 | h2
        · left; exact List.mem_cons_of_mem _ h2
        · right; exact h2

theorem lookupA_isSome_insertA {α : Type} {l : List (String × α)} {a : String}
    (k : String) (v : α) (h : (lookupA l a).isSome = true) :
    (lookupA (insertA l k v) a).isSome = true := by
  by_cases hk : (k == a) = true
  · rw [eq_of_beq hk] at *
    simp [lookupA_insertA_eq]
  · rw [lookupA_insertA_ne l v (by simpa using hk)]
    exact h

theorem insertA_keys_nodup {α : Type} {l : List (String × α)} {k : String}
    {v : α} (h : (l.map Prod.fst).Nodup) :
    ((insertA l k v).map Prod.fst).Nodup := by
  induction l with
  | nil => simp [insertA]
  | cons hd t ih =>
    obtain ⟨k', v'⟩ := hd
    rw [List.map_cons, List.nodup_cons] at h
    by_cases hk : (k' == k) = true
    · simp only [insertA, hk, if_true, List.map_cons, List.nodup_cons]
      exact h
    · simp only [insertA, hk, Bool.false_eq_true, if_false, List.map_cons,
        List.nodup_cons]
      refine ⟨?_, ih h.2⟩
      intro hm
      rcases List.mem_map.mp hm with ⟨b, hb, hbk⟩
      rcases mem_insertA hb with h2 | h2
      · exact h.1 (List.mem_map.mpr ⟨b, h2, hbk⟩)
      · rw [h2] at hbk
        simp at hbk
        rw [hbk] at hk
        simp at hk

theorem lookupA_filter_key {α : Type} (p : String → Bool)
    (l : List (String × α)) (a : String) :
    lookupA (l.filter fun ap => p ap.1) a =
      if p a then lookupA l a else none := by
  induction l with
  | nil => simp [lookupA]
  | cons hd t ih =>
    obtain ⟨k', v'⟩ := hd
    by_cases hk : (k' == a) = true
    · rw [eq_of_beq hk]
      by_cases hp : p a = true
      · simp [List.filter, hp, lookupA, ih]
      · simp at hp
        simp [List.filter, hp, lookupA, ih]
    · by_cases hp : p k' = true
      · simp [List.filter, hp, lookupA, hk, ih]
      · simp at hp
        simp [List.filter, hp, lookupA, hk, ih]

theorem mem_addSet {l : List String} {x y : String} :
    y ∈ addSet l x ↔ y ∈ l ∨ y = x := by
  by_cases h : x ∈ l
  · have hc : l.contains x = true := by simpa using h
    simp only [addSet, hc, if_true]
    exact ⟨fun hy => Or.inl hy, fun hy => hy.elim id fun he => he ▸ h⟩
  · have hc : l.contains x = false := by simpa using h
    simp only [addSet, hc, Bool.false_eq_true, if_false]
    simp [List.concat_eq_append]

theorem mem_foldl_addSet {α : Type} (f : α → String) (l : List α) :
    ∀ acc x, (x ∈ l.foldl (fun a p => addSet a (f p)) acc ↔
      x ∈ acc ∨ ∃ p ∈ l, x = f p) := by
  induction l with
  | nil => simp
  | cons hd t ih =>
    intro acc x
    simp only [List.foldl_cons]
    rw [ih]
    constructor
    · rintro (h | h)
      · rcases mem_addSet.mp h with h2 | h2
        · exact Or.inl h2
        · exact Or.inr ⟨hd, by simp, h2⟩
      · obtain ⟨p, hp, rfl⟩ := h
        exact Or.inr ⟨p, by simp [hp], rfl⟩
    · rintro (h | ⟨p, hp, rfl⟩)
      · exact Or.inl (mem_addSet.mpr (Or.inl h))
      · rcases List.mem_cons.mp hp with rfl | hp2
        · exact Or.inl (mem_addSet.mpr (Or.inr rfl))
        · exact Or.inr ⟨p, hp2, rfl⟩

theorem mem_foldl_addSet_id (l : List String) :
    ∀ acc x, x ∈ l.foldl addSet acc ↔ x ∈ acc ∨ x ∈ l := by
  induction l with
  | nil => simp
  | cons hd t ih =>
    intro acc x
    simp only [List.foldl_cons]
    rw [ih]
    constructor
    · rintro (h | h)
      · rcases mem_addSet.mp h with h2 | h2
        · exact Or.inl h2
        · exact Or.inr (by simp [h2])
      · exact Or.inr (List.mem_cons_of_mem _ h)
    · rintro (h | h)
      · exact Or.inl (mem_addSet.mpr (Or.inl h))
      · rcases List.mem_cons.mp h with rfl | h2
        · exact Or.inl (mem_addSet.mpr (Or.inr rfl))
        · exact Or.inr h2

theorem mem_activePairAddrs {cfgs : List (Int × BuyBotSettings)} {x : String} :
    x ∈ activePairAddrs cfgs ↔
      ∃ gs ∈ cfgs, ∃ p ∈ gs.2.allPairAddresses, x = toLowerStr p := by
  have main : ∀ (l : List (Int × BuyBotSettings)) (acc : List String),
      (x ∈ l.foldl (fun acc gs => gs.2.allPairAddresses.foldl
          (fun a p => addSet a (toLowerStr p)) acc) acc ↔
        x ∈ acc ∨ ∃ gs ∈ l, ∃ p ∈ gs.2.allPairAddresses, x = toLowerStr p) := by
    intro l
    induction l with
    | nil => simp
    | cons hd t ih =>
      intro acc
      simp only [List.foldl_cons]
      rw [ih, mem_foldl_addSet]
      constructor
      · rintro ((h | ⟨p, hp, rfl⟩) | ⟨gs, hgs, p, hp, rfl⟩)
        · exact Or.inl h
        · exact Or.inr ⟨hd, by simp, p, hp, rfl⟩
        · exact Or.inr ⟨gs, List.mem_cons_of_mem _ hgs, p, hp, rfl⟩
      · rintro (h | ⟨gs, hgs, p, hp, rfl⟩)
        · exact Or.inl (Or.inl h)
        · rcases List.mem_cons.mp hgs with rfl | h2
          · exact Or.inl (Or.inr ⟨p, hp, rfl⟩)
          · exact Or.inr ⟨gs, h2, p, hp, rfl⟩
  simpa using main cfgs []

theorem buildNeeded_entry_prop (app : List (String × ChainCfg))
    (S : List (Int × BuyBotSettings)) :
    ∀ e ∈ buildNeeded app S,
      (lookupA app e.1).isSome = true ∧
        ∀ a ∈ e.2, ∃ gs ∈ S, gs.2.chain = e.1 ∧
          ∃ p ∈ gs.2.allPairAddresses, a = toLowerStr p := by
  have main : ∀ (l : List (Int × BuyBotSettings))
      (acc : List (String × List String)),
      (∀ gs ∈ l, gs ∈ S) →
      (∀ e ∈ acc, (lookupA app e.1).isSome = true ∧
        ∀ a ∈ e.2, ∃ gs ∈ S, gs.2.chain = e.1 ∧
          ∃ p ∈ gs.2.allPairAddresses, a = toLowerStr p) →
      ∀ e ∈ l.foldl
        (fun acc gs =>
          match lookupA app gs.2.chain with
          | none => acc
          | some _ =>
            if gs.2.allPairAddresses.isEmpty then acc
            else addNeeded acc gs.2.chain (gs.2.allPairAddresses.map toLowerStr))
        acc,
        (lookupA app e.1).isSome = true ∧
        ∀ a ∈ e.2, ∃ gs ∈ S, gs.2.chain = e.1 ∧
          ∃ p ∈ gs.2.allPairAddresses, a = toLowerStr p := by
    intro l
    induction l with
    | nil =>
      intro acc _ hacc
      simpa using hacc
    | cons hd t ih =>
      intro acc hsub hacc
      simp only [List.foldl_cons]
      apply ih _ (fun gs hgs => hsub gs (List.mem_cons_of_mem _ hgs))
      cases hl : lookupA app hd.2.chain with
      | none => simpa [hl] using hacc
      | some cfg =>
        by_cases hemp : hd.2.allPairAddresses.isEmpty
        · simpa [hl, hemp] using hacc
        · simp only [hl, hemp, if_false]
          intro e he
          rcases mem_insertA he with he2 | he2
          · exact hacc e he2
          · subst he2
            refine ⟨by simp [hl], ?_⟩
            intro a ha
            rw [mem_foldl_addSet_id] at ha
            rcases ha with ha | ha
            · cases hla : lookupA acc hd.2.chain with
              | none => simp [hla] at ha
              | some old =>
                have := (hacc _ (lookupA_mem hla)).2 a (by simpa [hla] using ha)
                exact this
            · rcases List.mem_map.mp ha with ⟨p, hp, rfl⟩
              exact ⟨hd, hsub hd (by simp), rfl, p, hp, rfl⟩
  intro e he
  exact main S [] (fun gs h => h) (by simp) e he

theorem buildNeeded_keys_nodup (app : List (String × ChainCfg))
    (S : List (Int × BuyBotSettings)) :
    ((buildNeeded app S).map Prod.fst).Nodup := by
  have main : ∀ (l : List (Int × BuyBotSettings))
      (acc : List (String × List String)),
      (acc.map Prod.fst).Nodup →
      (((l.foldl
        (fun acc gs =>
          match lookupA app gs.2.chain with
          | none => acc
          | some _ =>
            if gs.2.allPairAddresses.isEmpty then acc
            else addNeeded acc gs.2.chain (gs.2.allPairAddresses.map toLowerStr))
        acc).map Prod.fst)).Nodup := by
    intro l
    induction l with
    | nil => intro acc h; simpa using h
    | cons hd t ih =>
      intro acc hacc
      simp only [List.foldl_cons]
      apply ih
      cases hl : lookupA app hd.2.chain with
      | none => simpa [hl] using hacc
      | some cfg =>
        by_cases hemp : hd.2.allPairAddresses.isEmpty
        · simpa [hl, hemp] using hacc
        · simp only [hl, hemp, if_false]
          exact insertA_keys_nodup hacc
  exact main S [] (by simp)

theorem lookupA_isSome_of_map_fst_eq {α β : Type} :
    ∀ {l1 : List (String × α)} {l2 : List (String × β)},
      l1.map Prod.fst = l2.map Prod.fst →
      ∀ a, (lookupA l1 a).isSome = (lookupA l2 a).isSome := by
  intro l1
  induction l1 with
  | nil =>
    intro l2 h a
    cases l2 with
    | nil => rfl
    | cons hd t => simp at h
  | cons hd t ih =>
    intro l2 h a
    cases l2 with
    | nil => simp at h
    | cons hd2 t2 =>
      simp at h
      obtain ⟨h1, h2⟩ := h
      by_cases hk : (hd.1 == a) = true
      · have hk2 : (hd2.1 == a) = true := by rw [← h1]; exact hk
        simp [lookupA, hk, hk2]
      · have hk2 : (hd2.1 == a) = false := by
          rw [← h1]; simpa using hk
        simp only [lookupA]
        rw [if_neg (by simp [hk]), if_neg (by simp [hk2])]
        exact ih h2 a

theorem ensureRuntime_wsOpen (cfg : ChainCfg) (chain : String)
    (rtOpt : Option ChainRuntime) (k : Nat) :
    (ensureRuntime cfg chain rtOpt k).1.isWebSocket = true →
      (ensureRuntime cfg chain rtOpt k).1.wsOpen = true := by
  cases rtOpt with
  | none => intro _; rfl
  | some rt =>
    by_cases hws : (rt.isWebSocket && !rt.wsOpen) = true
    · simp [ensureRuntime, hws, reconnectRuntime]
    · have hws2 : (rt.isWebSocket && !rt.wsOpen) = false := by simpa using hws
      simp only [ensureRuntime, hws2, Bool.false_eq_true, if_false]
      intro h
      simpa [h] using hws2

theorem ensureRuntime_noop (cfg : ChainCfg) (chain : String) (rt : ChainRuntime)
    (k : Nat) (h : rt.isWebSocket = true → rt.wsOpen = true) :
    ensureRuntime cfg chain (some rt) k = (rt, k, []) := by
  have hc : (rt.isWebSocket && !rt.wsOpen) = false := by
    cases hw : rt.isWebSocket
    · simp
    · simp [h hw]
  simp [ensureRuntime, hc]

theorem cleanupUnneeded_noop (chain : String) (needed : List String)
    (rt : ChainRuntime) (h : ∀ ap ∈ rt.pairs, needed.contains ap.1 = true) :
    cleanupUnneeded chain needed rt = (rt, []) := by
  unfold cleanupUnneeded
  have h1 : (rt.pairs.filter fun ap => needed.contains ap.1) = rt.pairs := by
    apply List.filter_eq_self.mpr
    intro a ha
    simpa using h a ha
  have h2 : (rt.pairs.filter fun ap => !(needed.contains ap.1)) = [] := by
    rw [List.filter_eq_nil_iff]
    intro a ha
    rw [h a ha]
    decide
  rw [h1, h2]
  simp

theorem addNewPairsAux_noop (cfgs : List (Int × BuyBotSettings)) (chain : String) :
    ∀ (todo : List String) (k : Nat) (pairs : List (String × PairRuntime)),
      (∀ a ∈ todo, (lookupA pairs a).isSome = true ∨ isAddress a = false) →
      addNewPairsAux cfgs chain k pairs todo = (pairs, k, []) := by
  intro todo
  induction todo with
  | nil => intro k pairs _; rfl
  | cons addr rest ih =>
    intro k pairs h
    have hrest : ∀ a ∈ rest, (lookupA pairs a).isSome = true ∨ isAddress a = false :=
      fun a ha => h a (List.mem_cons_of_mem _ ha)
    rcases h addr (by simp) with h1 | h1
    · simp only [addNewPairsAux, h1, if_true]
      exact ih k pairs hrest
    · by_cases h2 : (lookupA pairs addr).isSome = true
      · simp only [addNewPairsAux, h2, if_true]
        exact ih k pairs hrest
      · have h2f : (lookupA pairs addr).isSome = false := by simpa using h2
        simp only [addNewPairsAux, h2f, Bool.false_eq_true, if_false, h1,
          Bool.not_false, if_true]
        exact ih k pairs hrest

theorem reconnectPairsAux_map_fst (chain : String) :
    ∀ (pairs : List (String × PairRuntime)) (k : Nat),
      (reconnectPairsAux chain k pairs).1.map Prod.fst = pairs.map Prod.fst := by
  intro pairs
  induction pairs with
  | nil => intro k; rfl
  | cons hd t ih =>
    intro k
    simp [reconnectPairsAux, ih]

theorem reconnectPairsAux_lookup (chain : String) :
    ∀ (pairs : List (String × PairRuntime)) (k : Nat) (addr : String)
      (pr : PairRuntime), lookupA pairs addr = some pr →
      ∃ pr2, lookupA (reconnectPairsAux chain k pairs).1 addr = some pr2 ∧
        pr2.token0 = pr.token0 ∧ pr2.token1 = pr.token1 := by
  intro pairs
  induction pairs with
  | nil => intro k addr pr h; simp [lookupA] at h
  | cons hd t ih =>
    intro k addr pr h
    obtain ⟨a, q⟩ := hd
    by_cases hk : (a == addr) = true
    · simp [lookupA, hk] at h
      refine ⟨{ q with contractId := k }, ?_, by simp [h], by simp [h]⟩
      simp [reconnectPairsAux, lookupA, hk]
    · simp [lookupA, hk] at h
      obtain ⟨pr2, hl, ht⟩ := ih (k + 1) addr pr h
      refine ⟨pr2, ?_, ht⟩
      simp [reconnectPairsAux, lookupA, hk, hl]

theorem addNewPairsAux_preserves_binding (cfgs : List (Int × BuyBotSettings))
    (chain : String) :
    ∀ (todo : List String) (k : Nat) (pairs : List (String × PairRuntime))
      (x : String) (q : PairRuntime), lookupA pairs x = some q →
      lookupA (addNewPairsAux cfgs chain k pairs todo).1 x = some q := by
  intro todo
  induction todo with
  | nil => intro k pairs x q h; exact h
  | cons addr rest ih =>
    intro k pairs x q h
    by_cases h1 : (lookupA pairs addr).isSome = true
    · simpa [addNewPairsAux, h1] using ih k pairs x q h
    · have h1f : (lookupA pairs addr).isSome = false := by simpa using h1
      by_cases hv : isAddress addr = true
      · have hax : (addr == x) = false := by
          by_contra hc
          simp only [Bool.not_eq_false] at hc
          rw [eq_of_beq hc] at h1f
          simp [h, Option.isSome] at h1f
        simp only [addNewPairsAux, h1f, Bool.false_eq_true, if_false, hv,
          Bool.not_true, if_true]
        exact ih (k + 1) _ x q (by rw [lookupA_insertA_ne _ _ hax]; exact h)
      · have hvf : isAddress addr = false := by simpa using hv
        simpa [addNewPairsAux, h1f, hvf] using ih k pairs x q h

theorem addNewPairsAux_spec (cfgs : List (Int × BuyBotSettings)) (chain : String) :
    ∀ (todo : List String) (k : Nat) (pairs : List (String × PairRuntime)),
      (∀ x, (lookupA pairs x).isSome = true →
        (lookupA (addNewPairsAux cfgs chain k pairs todo).1 x).isSome = true) ∧
      (∀ a ∈ todo, isAddress a = true →
        (lookupA (addNewPairsAux cfgs chain k pairs todo).1 a).isSome = true) ∧
      (∀ ap ∈ (addNewPairsAux cfgs chain k pairs todo).1,
        ap ∈ pairs ∨ (ap.1 ∈ todo ∧ isAddress ap.1 = true)) := by
  intro todo
  induction todo with
  | nil =>
    intro k pairs
    exact ⟨fun x h => h, by simp, fun ap hap => Or.inl hap⟩
  | cons addr rest ih =>
    intro k pairs
    by_cases h1 : (lookupA pairs addr).isSome = true
    · have heq : addNewPairsAux cfgs chain k pairs (addr :: rest) =
          addNewPairsAux cfgs chain k pairs rest := by
        simp [addNewPairsAux, h1]
      obtain ⟨p1, p2, p3⟩ := ih k pairs
      rw [heq]
      refine ⟨p1, ?_, ?_⟩
      · intro a ha hval
        rcases List.mem_cons.mp ha with rfl | ha2
        · exact p1 a h1
        · exact p2 a ha2 hval
      · intro ap hap
        rcases p3 ap hap with h | h
        · exact Or.inl h
        · exact Or.inr ⟨List.mem_cons_of_mem _ h.1, h.2⟩
    · have h1f : (lookupA pairs addr).isSome = false := by simpa using h1
      by_cases hv : isAddress addr = true
      · have heq : (addNewPairsAux cfgs chain k pairs (addr :: rest)).1 =
            (addNewPairsAux cfgs chain (k + 1)
              (insertA pairs addr
                { contractId := k, token0 := firstMatchToken0 cfgs chain addr,
                  token1 := zeroAddr }) rest).1 := by
          simp [addNewPairsAux, h1f, hv]
        obtain ⟨p1, p2, p3⟩ := ih (k + 1)
          (insertA pairs addr
            { contractId := k, token0 := firstMatchToken0 cfgs chain addr,
              token1 := zeroAddr })
        rw [heq]
        refine ⟨?_, ?_, ?_⟩
        · intro x hx
          exact p1 x (lookupA_isSome_insertA _ _ hx)
        · intro a ha hval
          rcases List.mem_cons.mp ha with rfl | ha2
          · exact p1 a (by rw [lookupA_insertA_eq]; rfl)
          · exact p2 a ha2 hval
        · intro ap hap
          rcases p3 ap hap with h | h
          · rcases mem_insertA h with h2 | h2
            · exact Or.inl h2
            · refine Or.inr ⟨?_, ?_⟩
              · rw [h2]; simp
              · rw [h2]; exact hv
          · exact Or.inr ⟨List.mem_cons_of_mem _ h.1, h.2⟩
      · have hvf : isAddress addr = false := by simpa using hv
        have heq : addNewPairsAux cfgs chain k pairs (addr :: rest) =
            addNewPairsAux cfgs chain k pairs rest := by
          simp [addNewPairsAux, h1f, hvf]
        obtain ⟨p1, p2, p3⟩ := ih k pairs
        rw [heq]
        refine ⟨p1, ?_, ?_⟩
        · intro a ha hval
          rcases List.mem_cons.mp ha with rfl | ha2
          · rw [hval] at hvf; cases hvf
          · exact p2 a ha2 hval
        · intro ap hap
          rcases p3 ap hap with h | h
          · exact Or.inl h
          · exact Or.inr ⟨List.mem_cons_of_mem _ h.1, h.2⟩

theorem addNewPairsAux_lookup_char (cfgs : List (Int × BuyBotSettings))
    (chain : String) :
    ∀ (todo : List String) (k : Nat) (pairs : List (String × PairRuntime))
      (a : String),
      (lookupA (addNewPairsAux cfgs chain k pairs todo).1 a).isSome = true ↔
        ((lookupA pairs a).isSome = true ∨ (a ∈ todo ∧ isAddress a = true)) := by
  intro todo
  induction todo with
  | nil => intro k pairs a; simp [addNewPairsAux]
  | cons addr rest ih =>
    intro k pairs a
    by_cases h1 : (lookupA pairs addr).isSome = true
    · have heq : addNewPairsAux cfgs chain k pairs (addr :: rest) =
          addNewPairsAux cfgs chain k pairs rest := by
        simp [addNewPairsAux, h1]
      rw [heq, ih]
      constructor
      · rintro (h | h)
        · exact Or.inl h
        · exact Or.inr ⟨List.mem_cons_of_mem _ h.1, h.2⟩
      · rintro (h | ⟨hmem, hval⟩)
        · exact Or.inl h
        · rcases List.mem_cons.mp hmem with rfl | h2
          · exact Or.inl h1
          · exact Or.inr ⟨h2, hval⟩
    · have h1f : (lookupA pairs addr).isSome = false := by simpa using h1
      by_cases hv : isAddress addr = true
      · have heq : (addNewPairsAux cfgs chain k pairs (addr :: rest)).1 =
            (addNewPairsAux cfgs chain (k + 1)
              (insertA pairs addr
                { contractId := k, token0 := firstMatchToken0 cfgs chain addr,
                  token1 := zeroAddr }) rest).1 := by
          simp [addNewPairsAux, h1f, hv]
        rw [heq, ih]
        by_cases hax : (addr == a) = true
        · have haa : addr = a := eq_of_beq hax
          subst haa
          rw [lookupA_insertA_eq]
          simp [hv, h1f]
        · rw [lookupA_insertA_ne _ _ (by simpa using hax)]
          have hne : ¬(a = addr) := fun hc => by
            rw [hc] at hax; simp at hax
          constructor
          · rintro (h | h)
            · exact Or.inl h
            · exact Or.inr ⟨List.mem_cons_of_mem _ h.1, h.2⟩
          · rintro (h | ⟨hmem, hval⟩)
            · exact Or.inl h
            · rcases List.mem_cons.mp hmem with h2 | h2
              · exact absurd h2 hne
              · exact Or.inr ⟨h2, hval⟩
      · have hvf : isAddress addr = false := by simpa using hv
        have heq : addNewPairsAux cfgs chain k pairs (addr :: rest) =
            addNewPairsAux cfgs chain k pairs rest := by
          simp [addNewPairsAux, h1f, hvf]
        rw [heq, ih]
        constructor
        · rintro (h | h)
          · exact Or.inl h
          · exact Or.inr ⟨List.mem_cons_of_mem _ h.1, h.2⟩
        · rintro (h | ⟨hmem, hval⟩)
          · exact Or.inl h
          · rcases List.mem_cons.mp hmem with rfl | h2
            · rw [hval] at hvf; cases hvf
            · exact Or.inr ⟨h2, hval⟩

theorem addNewPairsAux_new_token (cfgs : List (Int × BuyBotSettings))
    (chain : String) :
    ∀ (todo : List String) (k : Nat) (pairs : List (String × PairRuntime))
      (a : String) (pr : PairRuntime),
      lookupA (addNewPairsAux cfgs chain k pairs todo).1 a = some pr →
      lookupA pairs a = none →
      pr.token1 = zeroAddr ∧ pr.token0 = firstMatchToken0 cfgs chain a := by
  intro todo
  induction todo with
  | nil =>
    intro k pairs a pr h hnone
    have h2 : lookupA pairs a = some pr := h
    rw [h2] at hnone
    cases hnone
  | cons addr rest ih =>
    intro k pairs a pr h hnone
    by_cases h1 : (lookupA pairs addr).isSome = true
    · rw [show addNewPairsAux cfgs chain k pairs (addr :: rest) =
          addNewPairsAux cfgs chain k pairs rest by simp [addNewPairsAux, h1]] at h
      exact ih k pairs a pr h hnone
    · have h1f : (lookupA pairs addr).isSome = false := by simpa using h1
      by_cases hv : isAddress addr = true
      · have heq : (addNewPairsAux cfgs chain k pairs (addr :: rest)).1 =
            (addNewPairsAux cfgs chain (k + 1)
              (insertA pairs addr
                { contractId := k, token0 := firstMatchToken0 cfgs chain addr,
                  token1 := zeroAddr }) rest).1 := by
          simp [addNewPairsAux, h1f, hv]
        rw [heq] at h
        by_cases hax : (addr == a) = true
        · have haa : addr = a := eq_of_beq hax
          subst haa
          have hball := addNewPairsAux_preserves_binding cfgs chain rest (k + 1)
            (insertA pairs addr
              { contractId := k, token0 := firstMatchToken0 cfgs chain addr,
                token1 := zeroAddr }) addr
            { contractId := k, token0 := firstMatchToken0 cfgs chain addr,
              token1 := zeroAddr } (lookupA_insertA_eq _ _ _)
          rw [hball] at h
          cases h
          exact ⟨rfl, rfl⟩
        · exact ih (k + 1) _ a pr h
            (by rw [lookupA_insertA_ne _ _ (by simpa using hax)]; exact hnone)
      · have hvf : isAddress addr = false := by simpa using hv
        rw [show addNewPairsAux cfgs chain k pairs (addr :: rest) =
            addNewPairsAux cfgs chain k pairs rest by
          simp [addNewPairsAux, h1f, hvf]] at h
        exact ih k pairs a pr h hnone

theorem syncChain_lookup_other (app : List (String × ChainCfg))
    (cfgs : List (Int × BuyBotSettings))
    (acc : List (String × ChainRuntime) × Nat × List SyncEvent)
    (entry : String × List String) (c : String)
    (hne : (entry.1 == c) = false) :
    lookupA (syncChain app cfgs acc entry).1 c = lookupA acc.1 c := by
  cases hcfg : lookupA app entry.1 with
  | none => simp [syncChain, hcfg]
  | some cfg =>
    simp only [syncChain, hcfg]
    exact lookupA_insertA_ne _ _ hne

theorem foldl_syncChain_lookup_notin (app : List (String × ChainCfg))
    (cfgs : List (Int × BuyBotSettings)) :
    ∀ (entries : List (String × List String))
      (acc : List (String × ChainRuntime) × Nat × List SyncEvent) (c : String),
      (∀ e ∈ entries, (e.1 == c) = false) →
      lookupA (entries.foldl (syncChain app cfgs) acc).1 c = lookupA acc.1 c := by
  intro entries
  induction entries with
  | nil => intro acc c _; rfl
  | cons hd t ih =>
    intro acc c h
    simp only [List.foldl_cons]
    rw [ih _ c (fun e he => h e (List.mem_cons_of_mem _ he)),
      syncChain_lookup_other app cfgs acc hd c (h hd (by simp))]

theorem ensureRuntime_pairs_key (cfg : ChainCfg) (chain : String)
    (rtOpt : Option ChainRuntime) (k : Nat) :
    ∀ ap ∈ (ensureRuntime cfg chain rtOpt k).1.pairs,
      ∃ rt, rtOpt = some rt ∧ ap.1 ∈ rt.pairs.map Prod.fst := by
  cases rtOpt with
  | none => intro ap hap; simp [ensureRuntime, freshRuntime] at hap
  | some rt =>
    intro ap hap
    refine ⟨rt, rfl, ?_⟩
    by_cases hws : (rt.isWebSocket && !rt.wsOpen) = true
    · simp only [ensureRuntime, hws, if_true, reconnectRuntime] at hap
      rw [← reconnectPairsAux_map_fst chain rt.pairs (k + 1)]
      exact List.mem_map_of_mem Prod.fst hap
    · have hws2 : (rt.isWebSocket && !rt.wsOpen) = false := by simpa using hws
      simp only [ensureRuntime, hws2, Bool.false_eq_true, if_false] at hap
      exact List.mem_map_of_mem Prod.fst hap

theorem syncChain_pairs_mem (app : List (String × ChainCfg))
    (cfgs : List (Int × BuyBotSettings)) (A : List String)
    (acc : List (String × ChainRuntime) × Nat × List SyncEvent)
    (entry : String × List String)
    (hacc : ∀ crt ∈ acc.1, ∀ ap ∈ crt.2.pairs, ap.1 ∈ A)
    (hent : ∀ a ∈ entry.2, a ∈ A) :
    ∀ crt ∈ (syncChain app cfgs acc entry).1, ∀ ap ∈ crt.2.pairs, ap.1 ∈ A := by
  cases hcfg : lookupA app entry.1 with
  | none => simpa [syncChain, hcfg] using hacc
  | some cfg =>
    intro crt hcrt ap hap
    simp only [syncChain, hcfg] at hcrt
    rcases mem_insertA hcrt with h | h
    · exact hacc crt h ap hap
    · rw [h] at hap
      simp only at hap
      rcases ((addNewPairsAux_spec cfgs entry.1 entry.2 _ _).2.2 ap hap) with hin | hnew
      · have hin2 : ap ∈ (ensureRuntime cfg entry.1 (lookupA acc.1 entry.1)
            acc.2.1).1.pairs ∧ ap.1 ∈ entry.2 := by
          simpa [cleanupUnneeded] using hin
        obtain ⟨rt0, hrt0, hkey⟩ := ensureRuntime_pairs_key cfg entry.1
          (lookupA acc.1 entry.1) acc.2.1 ap hin2.1
        rcases List.mem_map.mp hkey with ⟨bp, hbp, hfst⟩
        rw [← hfst]
        exact hacc (entry.1, rt0) (lookupA_mem hrt0) bp hbp
      · exact hent _ hnew.1

theorem syncChain_pairs_valid (app : List (String × ChainCfg))
    (cfgs : List (Int × BuyBotSettings))
    (acc : List (String × ChainRuntime) × Nat × List SyncEvent)
    (entry : String × List String)
    (hacc : ∀ crt ∈ acc.1, ∀ ap ∈ crt.2.pairs, isAddress ap.1 = true) :
    ∀ crt ∈ (syncChain app cfgs acc entry).1, ∀ ap ∈ crt.2.pairs,
      isAddress ap.1 = true := by
  cases hcfg : lookupA app entry.1 with
  | none => simpa [syncChain, hcfg] using hacc
  | some cfg =>
    intro crt hcrt ap hap
    simp only [syncChain, hcfg] at hcrt
    rcases mem_insertA hcrt with h | h
    · exact hacc crt h ap hap
    · rw [h] at hap
      simp only at hap
      rcases ((addNewPairsAux_spec cfgs entry.1 entry.2 _ _).2.2 ap hap) with hin | hnew
      · have hin2 : ap ∈ (ensureRuntime cfg entry.1 (lookupA acc.1 entry.1)
            acc.2.1).1.pairs ∧ ap.1 ∈ entry.2 := by
          simpa [cleanupUnneeded] using hin
        obtain ⟨rt0, hrt0, hkey⟩ := ensureRuntime_pairs_key cfg entry.1
          (lookupA acc.1 entry.1) acc.2.1 ap hin2.1
        rcases List.mem_map.mp hkey with ⟨bp, hbp, hfst⟩
        rw [← hfst]
        exact hacc (entry.1, rt0) (lookupA_mem hrt0) bp hbp
      · exact hnew.2

theorem foldl_syncChain_pairs_mem (app : List (String × ChainCfg))
    (cfgs : List (Int × BuyBotSettings)) (A : List String) :
    ∀ (entries : List (String × List String))
      (acc : List (String × ChainRuntime) × Nat × List SyncEvent),
      (∀ e ∈ entries, ∀ a ∈ e.2, a ∈ A) →
      (∀ crt ∈ acc.1, ∀ ap ∈ crt.2.pairs, ap.1 ∈ A) →
      ∀ crt ∈ (entries.foldl (syncChain app cfgs) acc).1, ∀ ap ∈ crt.2.pairs,
        ap.1 ∈ A := by
  intro entries
  induction entries with
  | nil => intro acc _ hacc; simpa using hacc
  | cons hd t ih =>
    intro acc hent hacc
    simp only [List.foldl_cons]
    exact ih _ (fun e he => hent e (List.mem_cons_of_mem _ he))
      (syncChain_pairs_mem app cfgs A acc hd hacc (hent hd (by simp)))

theorem foldl_syncChain_pairs_valid (app : List (String × ChainCfg))
    (cfgs : List (Int × BuyBotSettings)) :
    ∀ (entries : List (String × List String))
      (acc : List (String × ChainRuntime) × Nat × List SyncEvent),
      (∀ crt ∈ acc.1, ∀ ap ∈ crt.2.pairs, isAddress ap.1 = true) →
      ∀ crt ∈ (entries.foldl (syncChain app cfgs) acc).1, ∀ ap ∈ crt.2.pairs,
        isAddress ap.1 = true := by
  intro entries
  induction entries with
  | nil => intro acc hacc; simpa using hacc
  | cons hd t ih =>
    intro acc hacc
    simp only [List.foldl_cons]
    exact ih _ (syncChain_pairs_valid app cfgs acc hd hacc)

theorem syncChain_establishes (app : List (String × ChainCfg))
    (cfgs : List (Int × BuyBotSettings))
    (acc : List (String × ChainRuntime) × Nat × List SyncEvent)
    (entry : String × List String)
    (happ : (lookupA app entry.1).isSome = true) :
    chainDone (syncChain app cfgs acc entry).1 entry := by
  obtain ⟨cfg, hcfg⟩ := Option.isSome_iff_exists.mp happ
  unfold chainDone
  simp only [syncChain, hcfg]
  refine ⟨_, lookupA_insertA_eq _ _ _, ?_, ?_, ?_⟩
  · intro hws
    exact ensureRuntime_wsOpen cfg entry.1 (lookupA acc.1 entry.1) acc.2.1 hws
  · intro ap hap
    rcases (addNewPairsAux_spec cfgs entry.1 entry.2 _ _).2.2 ap hap with hin | hnew
    · have hin2 : ap ∈ (ensureRuntime cfg entry.1 (lookupA acc.1 entry.1)
          acc.2.1).1.pairs ∧ ap.1 ∈ entry.2 := by
        simpa [cleanupUnneeded] using hin
      exact hin2.2
    · exact hnew.1
  · intro a ha hval
    exact (addNewPairsAux_spec cfgs entry.1 entry.2 _ _).2.1 a ha hval

theorem syncChain_noop (app : List (String × ChainCfg))
    (cfgs : List (Int × BuyBotSettings)) (rts : List (String × ChainRuntime))
    (k : Nat) (evs : List SyncEvent) (entry : String × List String)
    (hdone : chainDone rts entry) :
    syncChain app cfgs (rts, k, evs) entry = (rts, k, evs) := by
  obtain ⟨rt, hlook, h3, h1, h2⟩ := hdone
  cases hcfg : lookupA app entry.1 with
  | none => simp [syncChain, hcfg]
  | some cfg =>
    have hens := ensureRuntime_noop cfg entry.1 rt k h3
    have hcle := cleanupUnneeded_noop entry.1 entry.2 rt
      (fun ap hap => by simpa using h1 ap hap)
    have hadd := addNewPairsAux_noop cfgs entry.1 entry.2 k rt.pairs
      (fun a ha => by
        by_cases hv : isAddress a = true
        · exact Or.inl (h2 a ha hv)
        · exact Or.inr (by simpa using hv))
    simp only [syncChain, hcfg, hlook, hens, hcle, hadd]
    have heta : ({ rt with pairs := rt.pairs } : ChainRuntime) = rt := rfl
    rw [heta, lookupA_insertA_self hlook]
    simp

theorem foldl_syncChain_noop (app : List (String × ChainCfg))
    (cfgs : List (Int × BuyBotSettings)) :
    ∀ (entries : List (String × List String)) (rts : List (String × ChainRuntime))
      (k : Nat) (evs : List SyncEvent),
      (∀ e ∈ entries, chainDone rts e) →
      entries.foldl (syncChain app cfgs) (rts, k, evs) = (rts, k, evs) := by
  intro entries
  induction entries with
  | nil => intro rts k evs _; rfl
  | cons hd t ih =>
    intro rts k evs h
    simp only [List.foldl_cons]
    rw [syncChain_noop app cfgs rts k evs hd (h hd (by simp))]
    exact ih rts k evs fun e he => h e (List.mem_cons_of_mem _ he)

theorem foldl_syncChain_establish (app : List (String × ChainCfg))
    (cfgs : List (Int × BuyBotSettings))
    (Inv : List (String × ChainRuntime) → Prop)
    (P : (String × List String) → Option ChainRuntime → Prop)
    (hinv : ∀ (acc : List (String × ChainRuntime) × Nat × List SyncEvent)
      (e : String × List String), Inv acc.1 → Inv (syncChain app cfgs acc e).1) :
    ∀ (entries : List (String × List String)),
      (entries.map Prod.fst).Nodup →
      (∀ (acc : List (String × ChainRuntime) × Nat × List SyncEvent)
        (e : String × List String), e ∈ entries → Inv acc.1 →
        P e (lookupA (syncChain app cfgs acc e).1 e.1)) →
      ∀ acc, Inv acc.1 → ∀ e ∈ entries,
        P e (lookupA (entries.foldl (syncChain app cfgs) acc).1 e.1) := by
  intro entries
  induction entries with
  | nil => intro _ _ acc _ e he; cases he
  | cons hd t ih =>
    intro hnd hstep acc hInv e he
    rw [List.map_cons, List.nodup_cons] at hnd
    simp only [List.foldl_cons]
    rcases List.mem_cons.mp he with rfl | het
    · have h1 : P e (lookupA (syncChain app cfgs acc e).1 e.1) :=
        hstep acc e (by simp) hInv
      have hpres : lookupA ((t.foldl (syncChain app cfgs)
          (syncChain app cfgs acc e)).1) e.1 =
          lookupA (syncChain app cfgs acc e).1 e.1 := by
        apply foldl_syncChain_lookup_notin
        intro e2 he2
        have hne : ¬(e2.1 = e.1) := by
          intro hx
          exact hnd.1 (hx ▸ List.mem_map_of_mem Prod.fst he2)
        simpa using hne
      rw [hpres]
      exact h1
    · exact ih hnd.2
        (fun acc2 e2 hm hi => hstep acc2 e2 (List.mem_cons_of_mem _ hm) hi)
        _ (hinv acc hd hInv) e het

theorem foldl_syncChain_chainDone (app : List (String × ChainCfg))
    (cfgs : List (Int × BuyBotSettings)) (entries : List (String × List String))
    (hnd : (entries.map Prod.fst).Nodup)
    (hconf : ∀ e ∈ entries, (lookupA app e.1).isSome = true) :
    ∀ acc, ∀ e ∈ entries,
      chainDone (entries.foldl (syncChain app cfgs) acc).1 e := by
  intro acc e he
  exact foldl_syncChain_establish app cfgs (fun _ => True)
    (fun e2 rtOpt => ∃ rt, rtOpt = some rt ∧
      (rt.isWebSocket = true → rt.wsOpen = true) ∧
      (∀ ap ∈ rt.pairs, ap.1 ∈ e2.2) ∧
      (∀ a ∈ e2.2, isAddress a = true → (lookupA rt.pairs a).isSome = true))
    (fun _ _ _ => trivial) entries hnd
    (fun acc2 e2 hm _ => syncChain_establishes app cfgs acc2 e2 (hconf e2 hm))
    acc trivial e he

theorem list_map_id_of_mem {α : Type} {l : List α} {f : α → α}
    (h : ∀ x ∈ l, f x = x) : l.map f = l := by
  induction l with
  | nil => rfl
  | cons hd t ih =>
    rw [List.map_cons, h hd (by simp), ih fun x hx => h x (List.mem_cons_of_mem _ hx)]

theorem list_flatMap_nil_of_mem {α β : Type} {l : List α} {f : α → List β}
    (h : ∀ x ∈ l, f x = []) : l.flatMap f = [] := by
  induction l with
  | nil => rfl
  | cons hd t ih =>
    rw [List.flatMap_cons, h hd (by simp),
      ih fun x hx => h x (List.mem_cons_of_mem _ hx)]
    rfl

theorem globalCleanup_noop (a : List String) (rts : List (String × ChainRuntime))
    (h : ∀ crt ∈ rts, ∀ ap ∈ crt.2.pairs, a.contains ap.1 = true) :
    globalCleanup a rts = (rts, []) := by
  unfold globalCleanup
  have h1 : (rts.map fun crt => (crt.1, (globalCleanupRt a crt.1 crt.2).1)) = rts := by
    apply list_map_id_of_mem
    intro crt hcrt
    have hfil : (crt.2.pairs.filter fun ap => a.contains ap.1) = crt.2.pairs := by
      apply List.filter_eq_self.mpr
      intro ap hap
      simpa using h crt hcrt ap hap
    have hrt : (globalCleanupRt a crt.1 crt.2).1 = crt.2 := by
      show ({ crt.2 with pairs :=
        crt.2.pairs.filter fun ap => a.contains ap.1 } : ChainRuntime) = crt.2
      rw [hfil]
    rw [hrt]
  have h2 : (rts.flatMap fun crt => (globalCleanupRt a crt.1 crt.2).2) = [] := by
    apply list_flatMap_nil_of_mem
    intro crt hcrt
    have hfil : (crt.2.pairs.filter fun ap => !(a.contains ap.1)) = [] := by
      rw [List.filter_eq_nil_iff]
      intro ap hap
      rw [h crt hcrt ap hap]
      decide
    show ((crt.2.pairs.filter fun ap => !(a.contains ap.1)).map
      fun ap => SyncEvent.removeListeners crt.1 ap.1) = []
    rw [hfil]
    rfl
  rw [h1, h2]

theorem globalCleanup_lookup (a : List String) (c : String) :
    ∀ (rts : List (String × ChainRuntime)),
      lookupA (globalCleanup a rts).1 c = (lookupA rts c).map
        (fun rt => { rt with pairs := rt.pairs.filter fun ap => a.contains ap.1 }) := by
  intro rts
  induction rts with
  | nil => rfl
  | cons hd t ih =>
    obtain ⟨c', rt⟩ := hd
    by_cases hk : (c' == c) = true
    · simp [globalCleanup, lookupA, hk, globalCleanupRt]
    · simp only [globalCleanup, List.map_cons, lookupA, hk, Bool.false_eq_true,
        if_false]
      simpa [globalCleanup] using ih

theorem globalCleanup_pairs_mem (a : List String)
    (rts : List (String × ChainRuntime)) :
    ∀ crt ∈ (globalCleanup a rts).1, ∀ ap ∈ crt.2.pairs, ap.1 ∈ a := by
  intro crt hcrt ap hap
  rcases List.mem_map.mp hcrt with ⟨crt0, hcrt0, rfl⟩
  have h2 : ap ∈ crt0.2.pairs ∧ ap.1 ∈ a := by simpa [globalCleanupRt] using hap
  exact h2.2

theorem globalCleanup_valid (a : List String)
    (rts : List (String × ChainRuntime))
    (h : ∀ crt ∈ rts, ∀ ap ∈ crt.2.pairs, isAddress ap.1 = true) :
    ∀ crt ∈ (globalCleanup a rts).1, ∀ ap ∈ crt.2.pairs, isAddress ap.1 = true := by
  intro crt hcrt ap hap
  rcases List.mem_map.mp hcrt with ⟨crt0, hcrt0, rfl⟩
  have h2 : ap ∈ crt0.2.pairs ∧ ap.1 ∈ a := by simpa [globalCleanupRt] using hap
  exact h crt0 hcrt0 ap h2.1

theorem list_map_congr_mem {α β : Type} {l : List α} {f g : α → β}
    (h : ∀ x ∈ l, f x = g x) : l.map f = l.map g := by
  induction l with
  | nil => rfl
  | cons hd t ih =>
    rw [List.map_cons, List.map_cons, h hd (by simp),
      ih fun x hx => h x (List.mem_cons_of_mem _ hx)]

theorem cfgStep_idem (app : List (String × ChainCfg))
    (disc : String → String → List String) (s : BuyBotSettings) :
    cfgStep app disc (cfgStep app disc s) = cfgStep app disc s := by
  cases hl : lookupA app s.chain with
  | none =>
    have h1 : cfgStep app disc s = s := by simp [cfgStep, hl]
    rw [h1]
    exact h1
  | some cfg =>
    by_cases hemp : s.allPairAddresses.isEmpty = true
    · by_cases hd : (disc s.tokenAddress s.chain).isEmpty = true
      · have h1 : cfgStep app disc s = s := by simp [cfgStep, hl, hemp, hd]
        rw [h1]
        exact h1
      · have h1 : cfgStep app disc s =
            { s with allPairAddresses := disc s.tokenAddress s.chain } := by
          simp [cfgStep, hl, hemp, hd]
        rw [h1]
        simp [cfgStep, hl, hd]
    · have h1 : cfgStep app disc s = s := by simp [cfgStep, hl, hemp]
      rw [h1]
      exact h1

theorem cfgStep_pools_sub (app : List (String × ChainCfg))
    (disc : String → String → List String) (s : BuyBotSettings) :
    ∀ p ∈ s.allPairAddresses, p ∈ (cfgStep app disc s).allPairAddresses := by
  intro p hp
  cases hl : lookupA app s.chain with
  | none => simpa [cfgStep, hl] using hp
  | some cfg =>
    by_cases hemp : s.allPairAddresses.isEmpty = true
    · rw [List.isEmpty_iff] at hemp
      rw [hemp] at hp
      cases hp
    · simpa [cfgStep, hl, hemp] using hp

theorem activePairAddrs_mono (app : List (String × ChainCfg))
    (disc : String → String → List String)
    (cfgs : List (Int × BuyBotSettings)) (x : String)
    (h : x ∈ activePairAddrs cfgs) :
    x ∈ activePairAddrs (cfgs.map fun gs => (gs.1, cfgStep app disc gs.2)) := by
  obtain ⟨gs, hgs, p, hp, rfl⟩ := mem_activePairAddrs.mp h
  exact mem_activePairAddrs.mpr ⟨(gs.1, cfgStep app disc gs.2),
    List.mem_map_of_mem _ hgs, p, cfgStep_pools_sub app disc gs.2 p hp, rfl⟩

theorem computeNeeded_idem (app : List (String × ChainCfg))
    (disc : String → String → List String) (cfgs : List (Int × BuyBotSettings)) :
    computeNeeded app disc (computeNeeded app disc cfgs).1 =
      computeNeeded app disc cfgs := by
  have hm : ((cfgs.map fun gs => (gs.1, cfgStep app disc gs.2)).map
      fun gs => (gs.1, cfgStep app disc gs.2)) =
      cfgs.map fun gs => (gs.1, cfgStep app disc gs.2) := by
    rw [List.map_map]
    apply list_map_congr_mem
    intro gs _
    simp [Function.comp, cfgStep_idem]
  simp only [computeNeeded]
  rw [hm]

/-- C6: running the sync cycle a second time with the configuration set
unchanged performs zero subscription churn — no provider creation, no
listener attach or removal — and leaves the whole state (in particular every
chain's pairs map) exactly as the first run left it. -/
theorem syncListeners_idempotent (appChains : List (String × ChainCfg))
    (disc : String → String → List String) (s : SyncState) :
    (syncListeners appChains disc (syncListeners appChains disc s).1).2 = [] ∧
    (syncListeners appChains disc (syncListeners appChains disc s).1).1 =
      (syncListeners appChains disc s).1 := by
  have hcn := computeNeeded_idem appChains disc s.cfgs
  have hc1eq : (computeNeeded appChains disc s.cfgs).1 =
      s.cfgs.map (fun gs => (gs.1, cfgStep appChains disc gs.2)) := rfl
  have hNeq : (computeNeeded appChains disc s.cfgs).2 =
      buildNeeded appChains (computeNeeded appChains disc s.cfgs).1 := rfl
  rcases hc : computeNeeded appChains disc s.cfgs with ⟨c1, N⟩
  rw [hc] at hcn hc1eq hNeq
  simp only at hc1eq hNeq
  rcases hg : globalCleanup (activePairAddrs s.cfgs) s.runtimes with ⟨rts1, ev1⟩
  rcases hf : N.foldl (syncChain appChains c1) (rts1, s.nextId, []) with ⟨r1, k1, evB⟩
  have hs1 : syncListeners appChains disc s = (⟨c1, r1, k1⟩, ev1 ++ evB) := by
    simp only [syncListeners]
    rw [hc, hg]
    simp only
    rw [hf]
  have hentN : ∀ e ∈ N, ∀ a ∈ e.2, a ∈ activePairAddrs c1 := by
    intro e he a ha
    obtain ⟨gs, hgs, hchain, p, hp, rfl⟩ :=
      ((buildNeeded_entry_prop appChains c1) e (hNeq ▸ he)).2 a ha
    exact mem_activePairAddrs.mpr ⟨gs, hgs, p, hp, rfl⟩
  have hconfN : ∀ e ∈ N, (lookupA appChains e.1).isSome = true := by
    intro e he
    exact ((buildNeeded_entry_prop appChains c1) e (hNeq ▸ he)).1
  have hndN : (N.map Prod.fst).Nodup := by
    rw [hNeq]
    exact buildNeeded_keys_nodup appChains c1
  have haccm : ∀ crt ∈ rts1, ∀ ap ∈ crt.2.pairs, ap.1 ∈ activePairAddrs c1 := by
    intro crt hcrt ap hap
    have h0 : ap.1 ∈ activePairAddrs s.cfgs := by
      have := globalCleanup_pairs_mem (activePairAddrs s.cfgs) s.runtimes crt
      rw [hg] at this
      exact this hcrt ap hap
    rw [hc1eq]
    exact activePairAddrs_mono appChains disc s.cfgs ap.1 h0
  have hQ : ∀ crt ∈ r1, ∀ ap ∈ crt.2.pairs, ap.1 ∈ activePairAddrs c1 := by
    intro crt hcrt ap hap
    have := foldl_syncChain_pairs_mem appChains c1 (activePairAddrs c1) N
      (rts1, s.nextId, []) hentN haccm crt
    rw [hf] at this
    exact this hcrt ap hap
  have hdone : ∀ e ∈ N, chainDone r1 e := by
    intro e he
    have := foldl_syncChain_chainDone appChains c1 N hndN hconfN
      (rts1, s.nextId, []) e he
    rw [hf] at this
    exact this
  have hg2 : globalCleanup (activePairAddrs c1) r1 = (r1, []) := by
    apply globalCleanup_noop
    intro crt hcrt ap hap
    simpa using hQ crt hcrt ap hap
  have hf2 : N.foldl (syncChain appChains c1) (r1, k1, []) = (r1, k1, []) :=
    foldl_syncChain_noop appChains c1 N r1 k1 [] hdone
  have hs2 : syncListeners appChains disc (⟨c1, r1, k1⟩ : SyncState) =
      (⟨c1, r1, k1⟩, []) := by
    simp only [syncListeners]
    rw [hcn]
    simp only
    rw [hg2]
    simp only
    rw [hf2]
    simp
  rw [hs1]
  simp only
  rw [hs2]
  exact ⟨rfl, rfl⟩

theorem syncChain_lookup_char (app : List (String × ChainCfg))
    (cfgs : List (Int × BuyBotSettings))
    (acc : List (String × ChainRuntime) × Nat × List SyncEvent)
    (e : String × List String) (cfg : ChainCfg)
    (hcfg : lookupA app e.1 = some cfg)
    (hInv : ∀ crt ∈ acc.1, ∀ ap ∈ crt.2.pairs, isAddress ap.1 = true) :
    ∃ rt, lookupA (syncChain app cfgs acc e).1 e.1 = some rt ∧
      ∀ a, (lookupA rt.pairs a).isSome = true ↔ (a ∈ e.2 ∧ isAddress a = true) := by
  have hens_valid : ∀ a2 q, lookupA (ensureRuntime cfg e.1 (lookupA acc.1 e.1)
      acc.2.1).1.pairs a2 = some q → isAddress a2 = true := by
    intro a2 q hq
    obtain ⟨rt0, hrt0, hkey⟩ := ensureRuntime_pairs_key cfg e.1
      (lookupA acc.1 e.1) acc.2.1 (a2, q) (lookupA_mem hq)
    rcases List.mem_map.mp hkey with ⟨bp, hbp, hfst⟩
    have hv := hInv (e.1, rt0) (lookupA_mem hrt0) bp hbp
    rw [hfst] at hv
    exact hv
  simp only [syncChain, hcfg]
  refine ⟨_, lookupA_insertA_eq _ _ _, ?_⟩
  intro a
  have hchar := addNewPairsAux_lookup_char cfgs e.1 e.2
    (ensureRuntime cfg e.1 (lookupA acc.1 e.1) acc.2.1).2.1
    (cleanupUnneeded e.1 e.2
      (ensureRuntime cfg e.1 (lookupA acc.1 e.1) acc.2.1).1).1.pairs a
  have hfil : lookupA (cleanupUnneeded e.1 e.2
      (ensureRuntime cfg e.1 (lookupA acc.1 e.1) acc.2.1).1).1.pairs a =
      (if e.2.contains a then lookupA (ensureRuntime cfg e.1 (lookupA acc.1 e.1)
        acc.2.1).1.pairs a else none) :=
    lookupA_filter_key _ _ a
  constructor
  · intro hsome
    rcases hchar.mp hsome with hpre | hnew
    · rw [hfil] at hpre
      by_cases hcont : e.2.contains a = true
      · rw [if_pos hcont] at hpre
        obtain ⟨q, hq⟩ := Option.isSome_iff_exists.mp hpre
        exact ⟨by simpa using hcont, hens_valid a q hq⟩
      · rw [if_neg (by simpa using hcont)] at hpre
        cases hpre
    · exact hnew
  · rintro ⟨hmem, hvalid⟩
    exact hchar.mpr (Or.inr ⟨hmem, hvalid⟩)

/-- C7 (amended): after a sync cycle, assuming every already-tracked pair
address is well-formed (an invariant registration maintains), a chain that
appears in the computed needed map tracks a pool address iff that address is
in the chain's needed set and is a well-formed address — so a referenced but
malformed address is never tracked — while a chain absent from the needed map
is only filtered against the union of addresses referenced by configurations
of every chain, so a pool referenced solely by another chain's configuration
survives on it. -/
theorem syncListeners_tracked_characterisation
    (appChains : List (String × ChainCfg)) (disc : String → String → List String)
    (s : SyncState)
    (hval : ∀ crt ∈ s.runtimes, ∀ ap ∈ crt.2.pairs, isAddress ap.1 = true) :
    (∀ e ∈ (computeNeeded appChains disc s.cfgs).2, ∃ rt,
        lookupA (syncListeners appChains disc s).1.runtimes e.1 = some rt ∧
        ∀ a, (lookupA rt.pairs a).isSome = true ↔
          (a ∈ e.2 ∧ isAddress a = true)) ∧
    (∀ c : String,
        (∀ e ∈ (computeNeeded appChains disc s.cfgs).2, (e.1 == c) = false) →
        lookupA (syncListeners appChains disc s).1.runtimes c =
          (lookupA s.runtimes c).map (fun rt =>
            { rt with pairs :=
                rt.pairs.filter fun ap =>
                  (activePairAddrs s.cfgs).contains ap.1 })) := by
  have hNeq : (computeNeeded appChains disc s.cfgs).2 =
      buildNeeded appChains (computeNeeded appChains disc s.cfgs).1 := rfl
  rcases hc : computeNeeded appChains disc s.cfgs with ⟨c1, N⟩
  rw [hc] at hNeq
  simp only at hNeq
  rcases hg : globalCleanup (activePairAddrs s.cfgs) s.runtimes with ⟨rts1, ev1⟩
  rcases hf : N.foldl (syncChain appChains c1) (rts1, s.nextId, []) with ⟨r1, k1, evB⟩
  have hrun : (syncListeners appChains disc s).1.runtimes = r1 := by
    simp only [syncListeners]
    rw [hc, hg]
    simp only
    rw [hf]
  have hconfN : ∀ e ∈ N, (lookupA appChains e.1).isSome = true := by
    intro e he
    exact ((buildNeeded_entry_prop appChains c1) e (hNeq ▸ he)).1
  have hndN : (N.map Prod.fst).Nodup := by
    rw [hNeq]
    exact buildNeeded_keys_nodup appChains c1
  have hbase : ∀ crt ∈ rts1, ∀ ap ∈ crt.2.pairs, isAddress ap.1 = true := by
    intro crt hcrt
    have := globalCleanup_valid (activePairAddrs s.cfgs) s.runtimes hval crt
    rw [hg] at this
    exact this hcrt
  constructor
  · intro e he
    have hfin := foldl_syncChain_establish appChains c1
      (fun rts => ∀ crt ∈ rts, ∀ ap ∈ crt.2.pairs, isAddress ap.1 = true)
      (fun e2 rtOpt => ∃ rt, rtOpt = some rt ∧
        ∀ a, (lookupA rt.pairs a).isSome = true ↔
          (a ∈ e2.2 ∧ isAddress a = true))
      (fun acc e2 hi => syncChain_pairs_valid appChains c1 acc e2 hi)
      N hndN
      (fun acc e2 he2 hi => by
        obtain ⟨cfg, hcfg⟩ := Option.isSome_iff_exists.mp (hconfN e2 he2)
        exact syncChain_lookup_char appChains c1 acc e2 cfg hcfg hi)
      (rts1, s.nextId, []) hbase e he
    rw [hf] at hfin
    rw [hrun]
    exact hfin
  · intro c hc2
    have hnotin := foldl_syncChain_lookup_notin appChains c1 N
      (rts1, s.nextId, []) c hc2
    rw [hf] at hnotin
    have hgl := globalCleanup_lookup (activePairAddrs s.cfgs) c s.runtimes
    rw [hg] at hgl
    rw [hrun, hnotin]
    exact hgl

/-- C5: when a streaming provider's socket is found not open, the sync cycle
takes the reconnection branch: a new provider is created and every tracked
pool's subscriptions are reattached to it, preserving each PairRuntime's
address and token mapping, so the set of tracked pool addresses on the chain
is identical before and after reconnection. -/
theorem ws_reconnect_preserves_pairs (cfg : ChainCfg) (chain : String)
    (rt : ChainRuntime) (k : Nat)
    (hws : rt.isWebSocket = true) (hdead : rt.wsOpen = false) :
    ensureRuntime cfg chain (some rt) k = reconnectRuntime chain k rt ∧
    (reconnectRuntime chain k rt).1.pairs.map Prod.fst = rt.pairs.map Prod.fst ∧
    (∀ addr pr, lookupA rt.pairs addr = some pr →
      ∃ pr2, lookupA (reconnectRuntime chain k rt).1.pairs addr = some pr2 ∧
        pr2.token0 = pr.token0 ∧ pr2.token1 = pr.token1) ∧
    (reconnectRuntime chain k rt).1.providerId = k ∧
    (reconnectRuntime chain k rt).1.wsOpen = true ∧
    (reconnectRuntime chain k rt).1.rpcUrl = rt.rpcUrl := by
  refine ⟨?_, reconnectPairsAux_map_fst chain rt.pairs (k + 1), ?_, rfl, rfl, rfl⟩
  · simp [ensureRuntime, hws, hdead]
  · intro addr pr h
    exact reconnectPairsAux_lookup chain rt.pairs (k + 1) addr pr h

/-- Closed instance of the reconnection property at a one-pair runtime. -/
theorem ws_reconnect_preserves_pairs_witness :
    ensureRuntime ⟨"wss://x"⟩ "bsc"
        (some ⟨0, [("0xp", ⟨0, "0xt", zeroAddr⟩)], "wss://x", true, false⟩) 5 =
      reconnectRuntime "bsc" 5
        ⟨0, [("0xp", ⟨0, "0xt", zeroAddr⟩)], "wss://x", true, false⟩ ∧
    (reconnectRuntime "bsc" 5
        ⟨0, [("0xp", ⟨0, "0xt", zeroAddr⟩)], "wss://x", true, false⟩).1.pairs.map
        Prod.fst =
      [("0xp", (⟨0, "0xt", zeroAddr⟩ : PairRuntime))].map Prod.fst :=
  ⟨(ws_reconnect_preserves_pairs ⟨"wss://x"⟩ "bsc"
      ⟨0, [("0xp", ⟨0, "0xt", zeroAddr⟩)], "wss://x", true, false⟩ 5 rfl rfl).1,
   (ws_reconnect_preserves_pairs ⟨"wss://x"⟩ "bsc"
      ⟨0, [("0xp", ⟨0, "0xt", zeroAddr⟩)], "wss://x", true, false⟩ 5 rfl rfl).2.1⟩

theorem round_div_ten_eq (t p : Nat) (hp : 0 < p) :
    round ((((t * 1000) / p : ℕ) : ℚ) / 10) = round (((t : ℚ) / (p : ℚ)) * 100) := by
  have hp0 : (0 : ℚ) < (p : ℚ) := by exact_mod_cast hp
  have hdm : p * (t * 1000 / p) + t * 1000 % p = t * 1000 :=
    Nat.div_add_mod (t * 1000) p
  have hrlt : t * 1000 % p < p := Nat.mod_lt _ hp
  have hdm2 : 10 * ((t * 1000 / p + 5) / 10) + (t * 1000 / p + 5) % 10 =
      t * 1000 / p + 5 := Nat.div_add_mod (t * 1000 / p + 5) 10
  have hs10 : (t * 1000 / p + 5) % 10 < 10 := Nat.mod_lt _ (by norm_num)
  have h10a : 10 * ((t * 1000 / p + 5) / 10) ≤ t * 1000 / p + 5 := by omega
  have hF1 : ((t * 1000 / p + 5) / 10) * 10 ≤ t * 1000 / p + 5 := by omega
  have hF2 : t * 1000 / p + 5 < (((t * 1000 / p + 5) / 10) + 1) * 10 := by omega
  have hF3 : ((t * 1000 / p + 5) / 10) * (10 * p) ≤ t * 1000 + 5 * p := by
    calc ((t * 1000 / p + 5) / 10) * (10 * p)
        = (10 * ((t * 1000 / p + 5) / 10)) * p := by ring
      _ ≤ (t * 1000 / p + 5) * p := Nat.mul_le_mul_right p h10a
      _ = (t * 1000 / p) * p + 5 * p := by ring
      _ ≤ t * 1000 + 5 * p := Nat.add_le_add_right (Nat.div_mul_le_self _ _) _
  have hF4 : t * 1000 + 5 * p < (((t * 1000 / p + 5) / 10) + 1) * (10 * p) := by
    have k4 : t * 1000 < p * (t * 1000 / p) + p := by omega
    calc t * 1000 + 5 * p < (p * (t * 1000 / p) + p) + 5 * p := by omega
      _ = (t * 1000 / p + 6) * p := by ring
      _ ≤ (10 * ((t * 1000 / p + 5) / 10) + 10) * p :=
          Nat.mul_le_mul_right p (by omega)
      _ = (((t * 1000 / p + 5) / 10) + 1) * (10 * p) := by ring
  have hL : round (((t * 1000 / p : ℕ) : ℚ) / 10) =
      (((t * 1000 / p + 5) / 10 : ℕ) : ℤ) := by
    rw [round_eq]
    rw [show ((t * 1000 / p : ℕ) : ℚ) / 10 + 1 / 2 =
        (((t * 1000 / p : ℕ) : ℚ) + 5) / 10 by ring]
    rw [Int.floor_eq_iff]
    constructor
    · rw [le_div_iff₀ (by norm_num : (0 : ℚ) < 10)]
      rw [Int.cast_natCast]
      exact_mod_cast hF1
    · rw [div_lt_iff₀ (by norm_num : (0 : ℚ) < 10)]
      rw [Int.cast_natCast]
      exact_mod_cast hF2
  have hR : round (((t : ℚ) / (p : ℚ)) * 100) =
      (((t * 1000 / p + 5) / 10 : ℕ) : ℤ) := by
    rw [round_eq]
    rw [show (t : ℚ) / (p : ℚ) * 100 + 1 / 2 =
        ((t : ℚ) * 1000 + 5 * (p : ℚ)) / (10 * (p : ℚ)) by
      field_simp
      ring]
    rw [Int.floor_eq_iff]
    constructor
    · rw [le_div_iff₀ (by positivity)]
      rw [Int.cast_natCast]
      exact_mod_cast hF3
    · rw [div_lt_iff₀ (by positivity)]
      rw [Int.cast_natCast]
      exact_mod_cast hF4
  rw [hL, hR]

/-- C8: the position increase is computed only when the swap's USD value
reaches the fixed 100-dollar floor; it is `null` when the balance query fails
or the prior balance is zero; when the prior balance `p` is positive it
equals `(post - pre) / pre * 100` rounded to the nearest integer, with
`post = p + tokenOut`; and prior balance 1000 with purchase 500 yields 50. -/
theorem positionIncrease_spec :
    (∀ (usd : ℚ) (q : Option Nat) (t : Nat), usd < 100 →
      positionIncreaseOf usd q t = none) ∧
    (∀ (usd : ℚ) (t : Nat), positionIncreaseOf usd none t = none) ∧
    (∀ (usd : ℚ) (t : Nat), positionIncreaseOf usd (some 0) t = none) ∧
    (∀ (usd : ℚ) (t p : Nat), 100 ≤ usd → 0 < p →
      positionIncreaseOf usd (some p) t =
        some (round (((((p + t : ℕ) : ℚ) - (p : ℚ)) / (p : ℚ)) * 100))) ∧
    positionIncreaseOf 150 (some 1000) 500 = some 50 := by
  refine ⟨?_, ?_, ?_, ?_, ?_⟩
  · intro usd q t husd
    simp [positionIncreaseOf, not_le.mpr husd]
  · intro usd t
    simp [positionIncreaseOf, getPreviousBalance]
  · intro usd t
    simp [positionIncreaseOf, getPreviousBalance]
  · intro usd t p husd hp
    simp only [positionIncreaseOf, getPreviousBalance, Option.getD_some,
      if_pos husd, if_pos hp]
    rw [Nat.add_sub_cancel_left]
    have hrhs : ((((p + t : ℕ) : ℚ) - (p : ℚ)) / (p : ℚ)) * 100 =
        ((t : ℚ) / (p : ℚ)) * 100 := by
      push_cast
      ring
    rw [hrhs, round_div_ten_eq t p hp]
  · norm_num [positionIncreaseOf, getPreviousBalance, round_eq]

/-- Closed instances of the position-increase cases: below the floor, zero
prior balance, failed query, and the 1000-prior / 500-purchase example. -/
theorem positionIncrease_spec_witness :
    positionIncreaseOf 50 (some 1000) 500 = none ∧
    positionIncreaseOf 150 none 500 = none ∧
    positionIncreaseOf 150 (some 0) 500 = none ∧
    positionIncreaseOf 150 (some 1000) 500 =
      some (round (((((1000 + 500 : ℕ) : ℚ) - (1000 : ℚ)) / (1000 : ℚ)) * 100)) :=
  ⟨positionIncrease_spec.1 50 (some 1000) 500 (by norm_num),
   positionIncrease_spec.2.1 150 500,
   positionIncrease_spec.2.2.1 150 500,
   positionIncrease_spec.2.2.2.1 150 500 1000 (by norm_num) (by norm_num)⟩

/-- C1: a decoded swap is discarded silently unless both the inbound base
(non-tracked) leg and the outbound tracked-token leg are strictly positive:
whenever the selected `baseIn` or `tokenOut` is not strictly positive,
`handleSwap` submits nothing to the dispatch queue. -/
theorem handleSwap_discards_nonpositive_legs
    (cfgs : List (Int × BuyBotSettings)) (chain pairAddress : String)
    (tokens : SwapTokens) (txHash : String)
    (amount0In amount1In amount0Out amount1Out : Int) (toAddr : String)
    (disc : String → String → List String) (pairData : Option PairData)
    (decResult : Option Int) (nativePriceUsd : ℚ) (prevQuery : Option Nat)
    (gid : Int) (s0 : BuyBotSettings) (rest : List (Int × BuyBotSettings))
    (hrel : relatedGroupsOf cfgs chain pairAddress = (gid, s0) :: rest)
    (hleg : (if tokens.token0 == toLowerStr s0.tokenAddress then amount1In
             else amount0In) ≤ 0 ∨
            (if tokens.token0 == toLowerStr s0.tokenAddress then amount0Out
             else amount1Out) ≤ 0) :
    (handleSwap cfgs chain pairAddress tokens txHash amount0In amount1In
      amount0Out amount1Out toAddr disc pairData decResult nativePriceUsd
      prevQuery).enqueued = [] := by
  simp only [handleSwap, hrel]
  by_cases h0 : (tokens.token0 == toLowerStr s0.tokenAddress) = true
  · rw [if_neg (by simp [h0])]
    rw [if_pos (by simpa [h0] using hleg)]
  · by_cases h1 : (tokens.token1 == toLowerStr s0.tokenAddress) = true
    · rw [if_neg (by simp [h0, h1])]
      rw [if_pos (by simpa [h0] using hleg)]
    · rw [if_pos (by simp [h0, h1])]

/-- Closed instance: a matched swap whose inbound base leg is zero is
discarded with nothing enqueued. -/
theorem handleSwap_discards_nonpositive_legs_witness :
    (handleSwap [(1, ⟨"bsc", "0xt", ["0xp"], "X", 50, none, 50, none⟩)] "bsc"
      "0xp" ⟨"0xt", zeroAddr⟩ "0xh" 0 0 (10 ^ 18) 0 "0xb" (fun _ _ => [])
      none none 10 none).enqueued = [] :=
  handleSwap_discards_nonpositive_legs _ _ _ _ _ _ _ _ _ _ _ _ _ _ _ 1
    ⟨"bsc", "0xt", ["0xp"], "X", 50, none, 50, none⟩ [] (by decide)
    (Or.inl (by decide))

/-- C2 counterexample: in chains.runtime.ts the V3 listener filters this
event on the signed deltas before any mapping runs — with token0 equal to
the tracked token and deltas (5, -3) it forwards nothing, not the canonical
four-leg record the claim requires for every signed event. -/
theorem signed_swap_decoding_counterexample :
    v3ForwardRuntime "0xt" "0xt" 5 (-3) = none ∧
    v3ForwardRuntime "0xt" "0xt" 5 (-3) ≠ some (canonicalOfSignedSpec 5 (-3)) := by
  constructor
  · decide
  · decide

/-- C2 (amended): both trackers map the signed deltas (a0, a1) into the
four-unsigned-leg canonical shape by exactly the stated formulas; the
config.ts listeners apply the mapping unconditionally before any filtering,
while the chains.runtime.ts listeners run a buy-direction pre-filter on the
signed deltas first and drop non-buy events unmapped; that pre-filter drops
only events that the canonical strict-positivity filter would discard
anyway, so the set of accepted swaps is unchanged. -/
theorem signed_swap_decoding (a0 a1 : Int) (token0 target : String) :
    v3ForwardConfig a0 a1 = some (canonicalOfSignedSpec a0 a1) ∧
    v4ForwardConfig a0 a1 = some (canonicalOfSignedSpec a0 a1) ∧
    v3ForwardRuntime token0 target a0 a1 =
      (if ((token0 == target) && decide (a0 < 0)) ||
          (!(token0 == target) && decide (a1 < 0)) then
        some (canonicalOfSignedSpec a0 a1) else none) ∧
    v4ForwardRuntime token0 target a0 a1 = v3ForwardRuntime token0 target a0 a1 ∧
    acceptedSwap (token0 == target) (v3ForwardRuntime token0 target a0 a1) =
      acceptedSwap (token0 == target) (v3ForwardConfig a0 a1) := by
  refine ⟨rfl, rfl, rfl, rfl, ?_⟩
  cases htk : (token0 == target) with
  | true =>
    by_cases ha0 : a0 < 0
    · simp [acceptedSwap, v3ForwardRuntime, v3ForwardConfig, htk, ha0]
    · simp only [acceptedSwap, v3ForwardRuntime, v3ForwardConfig, htk,
        canonicalOfSignedSpec, buyLegsOk]
      simp [ha0]
  | false =>
    by_cases ha1 : a1 < 0
    · simp [acceptedSwap, v3ForwardRuntime, v3ForwardConfig, htk, ha1]
    · simp only [acceptedSwap, v3ForwardRuntime, v3ForwardConfig, htk,
        canonicalOfSignedSpec, buyLegsOk]
      simp [ha1]

/-- C3: once the min/max USD filter passes, an alert is dispatched iff at
least the cooldown window (default 3 s, overridable per configuration) has
elapsed since the last accepted alert for the (destination, pool) key; the
stored timestamp is updated only on acceptance, never on rejection; and with
the 3-second default two qualifying swaps on one key 1 s apart dispatch
exactly once while a third 4 s after the first dispatches a second time. -/
theorem cooldown_gate_spec
    (s : BuyBotSettings) (gid : Int) (pair : String) (usd : ℚ) (now : Int)
    (lastMap : List (String × Int))
    (hmin : ¬ (((round usd : Int) : ℚ) < s.minBuyUsd))
    (hmax : (match s.maxBuyUsd with
             | some m => !(m == 0) && decide (m < ((round usd : Int) : ℚ))
             | none => false) = false) :
    (((sendPremiumBuyAlert s gid pair usd now lastMap).1.isSome = true ↔
      (s.cooldownSeconds.getD 3) * 1000 ≤
        ((now - ((lookupA lastMap (cooldownKey gid pair)).getD 0) : Int) : ℚ)) ∧
    ((sendPremiumBuyAlert s gid pair usd now lastMap).1 = none →
      (sendPremiumBuyAlert s gid pair usd now lastMap).2 = lastMap) ∧
    ((sendPremiumBuyAlert s gid pair usd now lastMap).1.isSome = true →
      (sendPremiumBuyAlert s gid pair usd now lastMap).2 =
        insertA lastMap (cooldownKey gid pair) now)) ∧
    ((sendPremiumBuyAlert ⟨"bsc", "0xt", ["0xp"], "E", 50, none, 50, none⟩ 1
        "0xp" 100 10000 []).1.isSome = true ∧
      (sendPremiumBuyAlert ⟨"bsc", "0xt", ["0xp"], "E", 50, none, 50, none⟩ 1
        "0xp" 100 11000
        (sendPremiumBuyAlert ⟨"bsc", "0xt", ["0xp"], "E", 50, none, 50, none⟩ 1
          "0xp" 100 10000 []).2).1 = none ∧
      (sendPremiumBuyAlert ⟨"bsc", "0xt", ["0xp"], "E", 50, none, 50, none⟩ 1
        "0xp" 100 11000
        (sendPremiumBuyAlert ⟨"bsc", "0xt", ["0xp"], "E", 50, none, 50, none⟩ 1
          "0xp" 100 10000 []).2).2 =
        (sendPremiumBuyAlert ⟨"bsc", "0xt", ["0xp"], "E", 50, none, 50, none⟩ 1
          "0xp" 100 10000 []).2 ∧
      (sendPremiumBuyAlert ⟨"bsc", "0xt", ["0xp"], "E", 50, none, 50, none⟩ 1
        "0xp" 100 14000
        (sendPremiumBuyAlert ⟨"bsc", "0xt", ["0xp"], "E", 50, none, 50, none⟩ 1
          "0xp" 100 10000 []).2).1.isSome = true) := by
  constructor
  · simp only [sendPremiumBuyAlert, if_neg hmin]
    rw [if_neg (by rw [hmax]; simp)]
    by_cases hcd : ((now - ((lookupA lastMap (cooldownKey gid pair)).getD 0) :
        Int) : ℚ) < (s.cooldownSeconds.getD 3) * 1000
    · rw [if_pos hcd]
      refine ⟨?_, fun _ => rfl, fun h => by simp at h⟩
      simp only [Option.isSome_none, Bool.false_eq_true, false_iff]
      exact not_le.mpr hcd
    · rw [if_neg hcd]
      refine ⟨?_, fun h => by simp at h, fun _ => rfl⟩
      simp only [Option.isSome_some, true_iff]
      exact not_lt.mp hcd
  · have hmin100 : ¬ (((round (100 : ℚ) : Int) : ℚ) < (50 : ℚ)) := by
      norm_num [round_eq]
    have h1b : (sendPremiumBuyAlert
        ⟨"bsc", "0xt", ["0xp"], "E", 50, none, 50, none⟩ 1 "0xp" 100
        10000 []).2 = insertA [] (cooldownKey 1 "0xp") 10000 := by
      simp only [sendPremiumBuyAlert]
      rw [if_neg hmin100, if_neg (by simp), if_neg (by norm_num [lookupA])]
    have h1a : (sendPremiumBuyAlert
        ⟨"bsc", "0xt", ["0xp"], "E", 50, none, 50, none⟩ 1 "0xp" 100
        10000 []).1.isSome = true := by
      simp only [sendPremiumBuyAlert]
      rw [if_neg hmin100, if_neg (by simp), if_neg (by norm_num [lookupA])]
      rfl
    have h2 : sendPremiumBuyAlert
        ⟨"bsc", "0xt", ["0xp"], "E", 50, none, 50, none⟩ 1 "0xp" 100 11000
        (insertA [] (cooldownKey 1 "0xp") 10000) =
        (none, insertA [] (cooldownKey 1 "0xp") 10000) := by
      simp only [sendPremiumBuyAlert]
      rw [if_neg hmin100, if_neg (by simp),
        if_pos (by norm_num [insertA, lookupA])]
    have h3 : (sendPremiumBuyAlert
        ⟨"bsc", "0xt", ["0xp"], "E", 50, none, 50, none⟩ 1 "0xp" 100 14000
        (insertA [] (cooldownKey 1 "0xp") 10000)).1.isSome = true := by
      simp only [sendPremiumBuyAlert]
      rw [if_neg hmin100, if_neg (by simp),
        if_neg (by norm_num [insertA, lookupA])]
      rfl
    rw [h1b]
    exact ⟨h1a, by rw [h2], by rw [h2], h3⟩

/-- Closed instance of the cooldown characterisation at an empty state. -/
theorem cooldown_gate_spec_witness :
    ((sendPremiumBuyAlert ⟨"bsc", "0xt", ["0xp"], "E", 50, none, 50, none⟩ 1
        "0xp" 100 10000 []).1.isSome = true ↔
      ((Option.getD (none : Option ℚ) 3) * 1000 ≤
        ((10000 - ((lookupA ([] : List (String × Int))
          (cooldownKey 1 "0xp")).getD 0) : Int) : ℚ))) :=
  ((cooldown_gate_spec ⟨"bsc", "0xt", ["0xp"], "E", 50, none, 50, none⟩ 1 "0xp"
    100 10000 [] (by norm_num [round_eq]) (by simp)).1).1

/-- C9: enrichment failure never suppresses an otherwise-qualifying alert:
with the pair-detail lookup failed (no pair data) and the decimals query
failed or answering outside 0..36, `handleSwap` still enqueues one alert per
related group, carrying zero 24h volume, zero market cap, zero price, zero
pool liquidity, and token amounts formatted with the 18-decimal default. -/
theorem handleSwap_enrichment_failure_not_suppressing
    (cfgs : List (Int × BuyBotSettings)) (chain pairAddress : String)
    (tokens : SwapTokens) (txHash : String)
    (amount0In amount1In amount0Out amount1Out : Int) (toAddr : String)
    (disc : String → String → List String) (decResult : Option Int)
    (nativePriceUsd : ℚ) (prevQuery : Option Nat)
    (gid : Int) (s0 : BuyBotSettings) (rest : List (Int × BuyBotSettings))
    (hrel : relatedGroupsOf cfgs chain pairAddress = (gid, s0) :: rest)
    (h0 : (tokens.token0 == toLowerStr s0.tokenAddress) = true)
    (hpos1 : 0 < amount1In) (hpos2 : 0 < amount0Out)
    (hdec : decResult = none ∨ ∃ d, decResult = some d ∧ ¬(0 ≤ d ∧ d ≤ 36)) :
    tokenDecimalsOf decResult = 18 ∧
    (handleSwap cfgs chain pairAddress tokens txHash amount0In amount1In
      amount0Out amount1Out toAddr disc none decResult nativePriceUsd
      prevQuery).enqueued.length = ((gid, s0) :: rest).length ∧
    ∀ e ∈ (handleSwap cfgs chain pairAddress tokens txHash amount0In amount1In
      amount0Out amount1Out toAddr disc none decResult nativePriceUsd
      prevQuery).enqueued,
      e.2.volume24h = 0 ∧ e.2.marketCap = 0 ∧ e.2.priceUsd = 0 ∧
      e.2.pairLiquidityUsd = 0 ∧
      e.2.tokenAmount = (amount0Out : ℚ) / 10 ^ 18 := by
  have hd18 : tokenDecimalsOf decResult = 18 := by
    rcases hdec with h | ⟨d, hd, hr⟩
    · rw [h]; rfl
    · rw [hd]; simp [tokenDecimalsOf, hr]
  refine ⟨hd18, ?_, ?_⟩
  · simp only [handleSwap, hrel]
    rw [if_neg (by simp [h0])]
    rw [if_neg (by simp [h0]; omega)]
    simp
  · simp only [handleSwap, hrel]
    rw [if_neg (by simp [h0])]
    rw [if_neg (by simp [h0]; omega)]
    intro e he
    rcases List.mem_map.mp he with ⟨gs, hgs, rfl⟩
    refine ⟨rfl, by simp, rfl, rfl, ?_⟩
    simp [h0, hd18]

/-- Closed instance: with one related group, a failed pair lookup and a
failed decimals query, exactly one alert is enqueued with zero volume. -/
theorem handleSwap_enrichment_failure_witness :
    tokenDecimalsOf none = 18 ∧
    (handleSwap [(1, ⟨"bsc", "0xt", ["0xp"], "X", 50, none, 50, none⟩)] "bsc"
      "0xp" ⟨"0xt", zeroAddr⟩ "0xh" 0 (10 ^ 18) (10 ^ 18) 0 "0xb"
      (fun _ _ => []) none none 10 none).enqueued.length =
      [(1, (⟨"bsc", "0xt", ["0xp"], "X", 50, none, 50, none⟩ : BuyBotSettings))].length :=
  ⟨(handleSwap_enrichment_failure_not_suppressing
      [(1, ⟨"bsc", "0xt", ["0xp"], "X", 50, none, 50, none⟩)] "bsc" "0xp"
      ⟨"0xt", zeroAddr⟩ "0xh" 0 (10 ^ 18) (10 ^ 18) 0 "0xb" (fun _ _ => [])
      none 10 none 1 ⟨"bsc", "0xt", ["0xp"], "X", 50, none, 50, none⟩ []
      (by decide) (by decide) (by decide) (by decide) (Or.inl rfl)).1,
   (handleSwap_enrichment_failure_not_suppressing
      [(1, ⟨"bsc", "0xt", ["0xp"], "X", 50, none, 50, none⟩)] "bsc" "0xp"
      ⟨"0xt", zeroAddr⟩ "0xh" 0 (10 ^ 18) (10 ^ 18) 0 "0xb" (fun _ _ => [])
      none 10 none 1 ⟨"bsc", "0xt", ["0xp"], "X", 50, none, 50, none⟩ []
      (by decide) (by decide) (by decide) (by decide) (Or.inl rfl)).2.1⟩

/-- C10: a PairRuntime registered by the sync cycle stores, as token0, the
first referencing configuration's token address lowercased (the zero address
when none matches) and, as token1, always the zero address — the pool's real
asset addresses are never consulted; consequently, on a swap whose stored
token0 equals the first related configuration's lowercased token,
`handleSwap` classifies the tracked token as token0 and takes the base leg
from amount1In and the tracked-token leg from amount0Out. -/
theorem pairRuntime_token_slots_and_leg_selection :
    (∀ (cfgs2 : List (Int × BuyBotSettings)) (chain2 : String) (k : Nat)
      (pairs : List (String × PairRuntime)) (todo : List String)
      (a : String) (pr : PairRuntime),
      lookupA (addNewPairsAux cfgs2 chain2 k pairs todo).1 a = some pr →
      lookupA pairs a = none →
      pr.token1 = zeroAddr ∧ pr.token0 = firstMatchToken0 cfgs2 chain2 a) ∧
    (∀ (cfgs : List (Int × BuyBotSettings)) (chain pairAddress : String)
      (tokens : SwapTokens) (txHash : String)
      (amount0In amount1In amount0Out amount1Out : Int) (toAddr : String)
      (disc : String → String → List String) (pairData : Option PairData)
      (decResult : Option Int) (nativePriceUsd : ℚ) (prevQuery : Option Nat)
      (gid : Int) (s0 : BuyBotSettings) (rest : List (Int × BuyBotSettings)),
      relatedGroupsOf cfgs chain pairAddress = (gid, s0) :: rest →
      (tokens.token0 == toLowerStr s0.tokenAddress) = true →
      0 < amount1In → 0 < amount0Out →
      ∀ e ∈ (handleSwap cfgs chain pairAddress tokens txHash amount0In
        amount1In amount0Out amount1Out toAddr disc pairData decResult
        nativePriceUsd prevQuery).enqueued,
        e.2.baseAmount = (amount1In : ℚ) / 10 ^ 18 ∧
        e.2.tokenAmount =
          (amount0Out : ℚ) / 10 ^ (tokenDecimalsOf decResult).toNat) := by
  constructor
  · intro cfgs2 chain2 k pairs todo a pr h hnone
    exact addNewPairsAux_new_token cfgs2 chain2 todo k pairs a pr h hnone
  · intro cfgs chain pairAddress tokens txHash amount0In amount1In amount0Out
      amount1Out toAddr disc pairData decResult nativePriceUsd prevQuery gid
      s0 rest hrel h0 hpos1 hpos2
    simp only [handleSwap, hrel]
    rw [if_neg (by simp [h0])]
    rw [if_neg (by simp [h0]; omega)]
    intro e he
    rcases List.mem_map.mp he with ⟨gs, hgs, rfl⟩
    constructor
    · simp [h0]
    · simp [h0]

/-- Closed instance: registration assigns the referencing configuration's
token (lowercased) and the zero address to a freshly tracked pool. -/
theorem pairRuntime_token_slots_witness :
    ∃ pr, lookupA (addNewPairsAux
        [(1, ⟨"bsc", "0xT", ["0xaaaaaaaaaaaaaaaaaaaaaaaaaaaaaaaaaaaaaaaa"],
          "X", 50, none, 50, none⟩)] "bsc" 0 []
        ["0xaaaaaaaaaaaaaaaaaaaaaaaaaaaaaaaaaaaaaaaa"]).1
        "0xaaaaaaaaaaaaaaaaaaaaaaaaaaaaaaaaaaaaaaaa" = some pr ∧
      pr.token1 = zeroAddr ∧
      pr.token0 = firstMatchToken0
        [(1, ⟨"bsc", "0xT", ["0xaaaaaaaaaaaaaaaaaaaaaaaaaaaaaaaaaaaaaaaa"],
          "X", 50, none, 50, none⟩)] "bsc"
        "0xaaaaaaaaaaaaaaaaaaaaaaaaaaaaaaaaaaaaaaaa" := by
  have hlook : lookupA (addNewPairsAux
      [(1, ⟨"bsc", "0xT", ["0xaaaaaaaaaaaaaaaaaaaaaaaaaaaaaaaaaaaaaaaa"],
        "X", 50, none, 50, none⟩)] "bsc" 0 []
      ["0xaaaaaaaaaaaaaaaaaaaaaaaaaaaaaaaaaaaaaaaa"]).1
      "0xaaaaaaaaaaaaaaaaaaaaaaaaaaaaaaaaaaaaaaaa" =
      some ⟨0, "0xt", zeroAddr⟩ := by decide
  exact ⟨⟨0, "0xt", zeroAddr⟩, hlook,
    pairRuntime_token_slots_and_leg_selection.1
      [(1, ⟨"bsc", "0xT", ["0xaaaaaaaaaaaaaaaaaaaaaaaaaaaaaaaaaaaaaaaa"],
        "X", 50, none, 50, none⟩)] "bsc" 0 []
      ["0xaaaaaaaaaaaaaaaaaaaaaaaaaaaaaaaaaaaaaaaa"]
      "0xaaaaaaaaaaaaaaaaaaaaaaaaaaaaaaaaaaaaaaaa" ⟨0, "0xt", zeroAddr⟩
      hlook rfl⟩

/-- C4 counterexample: the minimum-USD filter runs inside the queued task,
not before the queue: a qualifying swap computing only 10 dollars still
places one entry in the dispatch queue, and that entry's task then sends
nothing. -/
theorem dollar10_swap_still_enqueued :
    (handleSwap [(7, ⟨"bsc", "0xt", ["0xp"], "X", 50, none, 50, none⟩)] "bsc"
      "0xp" ⟨"0xt", zeroAddr⟩ "0xh" 0 (10 ^ 18) (10 ^ 18) 0 "0xb"
      (fun _ _ => []) none none 10 none).enqueued ≠ [] ∧
    (handleSwap [(7, ⟨"bsc", "0xt", ["0xp"], "X", 50, none, 50, none⟩)] "bsc"
      "0xp" ⟨"0xt", zeroAddr⟩ "0xh" 0 (10 ^ 18) (10 ^ 18) 0 "0xb"
      (fun _ _ => []) none none 10 none).enqueued.length = 1 ∧
    (sendPremiumBuyAlert ⟨"bsc", "0xt", ["0xp"], "X", 50, none, 50, none⟩ 7
      "0xp" 10 100000 []).1 = none := by
  have hrel : relatedGroupsOf
      [(7, ⟨"bsc", "0xt", ["0xp"], "X", 50, none, 50, none⟩)] "bsc" "0xp" =
      [(7, ⟨"bsc", "0xt", ["0xp"], "X", 50, none, 50, none⟩)] := by decide
  have hlen : (handleSwap
      [(7, ⟨"bsc", "0xt", ["0xp"], "X", 50, none, 50, none⟩)] "bsc"
      "0xp" ⟨"0xt", zeroAddr⟩ "0xh" 0 (10 ^ 18) (10 ^ 18) 0 "0xb"
      (fun _ _ => []) none none 10 none).enqueued.length = 1 := by
    simp only [handleSwap, hrel]
    rw [if_neg (by decide)]
    rw [if_neg (by decide)]
    rfl
  refine ⟨?_, hlen, ?_⟩
  · intro hnil
    rw [hnil] at hlen
    simp at hlen
  · simp only [sendPremiumBuyAlert]
    rw [if_pos (by norm_num [round_eq])]

/-- C4 (amended): with minBuyUsd 50, dollarsPerEmoji 50 and emoji "X", a
swap computing 230 dollars is enqueued and its queued task dispatches an
alert whose emoji bar is exactly four repetitions of "X"; a swap computing
10 dollars is also enqueued — its entry is placed in the dispatch queue —
but the queued task is rejected by the minimum filter, dispatching nothing
and leaving the cooldown state untouched. -/
theorem emoji_bar_scenario :
    (handleSwap [(7, ⟨"bsc", "0xt", ["0xp"], "X", 50, none, 50, none⟩)] "bsc"
      "0xp" ⟨"0xt", zeroAddr⟩ "0xh" 0 (10 ^ 18) (10 ^ 18) 0 "0xb"
      (fun _ _ => []) none none 230 none).enqueued.length = 1 ∧
    (∀ e ∈ (handleSwap [(7, ⟨"bsc", "0xt", ["0xp"], "X", 50, none, 50,
        none⟩)] "bsc" "0xp" ⟨"0xt", zeroAddr⟩ "0xh" 0 (10 ^ 18) (10 ^ 18) 0
        "0xb" (fun _ _ => []) none none 230 none).enqueued,
      e.2.usdValue = 230) ∧
    (sendPremiumBuyAlert ⟨"bsc", "0xt", ["0xp"], "X", 50, none, 50, none⟩ 7
      "0xp" 230 100000 []).1 =
      some ⟨230, "XXXX"⟩ ∧
    (handleSwap [(7, ⟨"bsc", "0xt", ["0xp"], "X", 50, none, 50, none⟩)] "bsc"
      "0xp" ⟨"0xt", zeroAddr⟩ "0xh" 0 (10 ^ 18) (10 ^ 18) 0 "0xb"
      (fun _ _ => []) none none 10 none).enqueued.length = 1 ∧
    (sendPremiumBuyAlert ⟨"bsc", "0xt", ["0xp"], "X", 50, none, 50, none⟩ 7
      "0xp" 10 100000 []) =
      (none, []) := by
  have hrel : relatedGroupsOf
      [(7, ⟨"bsc", "0xt", ["0xp"], "X", 50, none, 50, none⟩)] "bsc" "0xp" =
      [(7, ⟨"bsc", "0xt", ["0xp"], "X", 50, none, 50, none⟩)] := by decide
  refine ⟨?_, ?_, ?_, ?_, ?_⟩
  · simp only [handleSwap, hrel]
    rw [if_neg (by decide)]
    rw [if_neg (by decide)]
    rfl
  · simp only [handleSwap, hrel]
    rw [if_neg (by decide)]
    rw [if_neg (by decide)]
    intro e he
    rcases List.mem_map.mp he with ⟨gs, hgs, rfl⟩
    show ((if (("0xt" == toLowerStr "0xt") = true) then ((10 : Int) ^ 18)
      else 0 : Int) : ℚ) / 10 ^ 18 * 230 = 230
    rw [if_pos (by decide)]
    norm_num
  · simp only [sendPremiumBuyAlert]
    rw [if_neg (by norm_num [round_eq]), if_neg (by simp),
      if_neg (by norm_num [lookupA])]
    have h230 : round (230 : ℚ) = 230 := by norm_num [round_eq]
    rw [h230]
    simp only [ite_self]
    have hfl : (⌊((230 : Int) : ℚ) / 50⌋ : ℤ) = 4 := by norm_num
    rw [hfl]
    decide
  · simp only [handleSwap, hrel]
    rw [if_neg (by decide)]
    rw [if_neg (by decide)]
    rfl
  · simp only [sendPremiumBuyAlert]
    rw [if_pos (by norm_num [round_eq])]

/-- C7 counterexample: the global cleanup keeps any pool referenced by any
configuration on any chain, so a pool tracked on `bsc` that only an
`ethereum` configuration references survives the sync cycle on `bsc`, even
though no `bsc` configuration relates to it — the claimed per-chain
"iff some configuration references it" tracking condition fails. -/
theorem cross_chain_pool_survives :
    (lookupA (syncListeners
        [("bsc", ⟨"http://b"⟩), ("ethereum", ⟨"http://e"⟩)]
        (fun _ _ => [])
        ⟨[(1, ⟨"ethereum", "0xt",
            ["0xaaaaaaaaaaaaaaaaaaaaaaaaaaaaaaaaaaaaaaaa"], "X", 50, none, 50,
            none⟩)],
          [("bsc", ⟨0, [("0xaaaaaaaaaaaaaaaaaaaaaaaaaaaaaaaaaaaaaaaa",
            ⟨0, "0xt", zeroAddr⟩)], "http://b", false, true⟩)], 1⟩).1.runtimes
        "bsc").elim false
      (fun rt => (lookupA rt.pairs
        "0xaaaaaaaaaaaaaaaaaaaaaaaaaaaaaaaaaaaaaaaa").isSome) = true ∧
    relatedGroupsOf
      [(1, ⟨"ethereum", "0xt", ["0xaaaaaaaaaaaaaaaaaaaaaaaaaaaaaaaaaaaaaaaa"],
        "X", 50, none, 50, none⟩)]
      "bsc" "0xaaaaaaaaaaaaaaaaaaaaaaaaaaaaaaaaaaaaaaaa" = [] := by
  decide

theorem syncListeners_tracked_characterisation_witness :
    ∃ rt, lookupA (syncListeners [("bsc", (⟨"http://b"⟩ : ChainCfg))]
        (fun _ _ => [])
        ⟨[(1, ⟨"bsc", "0xt", ["0xaaaaaaaaaaaaaaaaaaaaaaaaaaaaaaaaaaaaaaaa"],
            "X", 50, none, 50, none⟩)], [], 0⟩).1.runtimes "bsc" = some rt ∧
      ∀ a, (lookupA rt.pairs a).isSome = true ↔
        (a ∈ ["0xaaaaaaaaaaaaaaaaaaaaaaaaaaaaaaaaaaaaaaaa"] ∧
          isAddress a = true) :=
  (syncListeners_tracked_characterisation
    [("bsc", (⟨"http://b"⟩ : ChainCfg))] (fun _ _ => [])
    ⟨[(1, ⟨"bsc", "0xt", ["0xaaaaaaaaaaaaaaaaaaaaaaaaaaaaaaaaaaaaaaaa"],
        "X", 50, none, 50, none⟩)], [], 0⟩ (by simp)).1
    ("bsc", ["0xaaaaaaaaaaaaaaaaaaaaaaaaaaaaaaaaaaaaaaaa"]) (by decide)
